import Mathlib

set_option maxRecDepth 8000

/-!
A shallow embedding of `cmd/sql-agent/vendor/github.com/snowflakedb/gosnowflake/dsn.go`:
the Snowflake DSN data model (`Config`), the serializer (`DSN`), the parser
(`ParseDSN` with its backward index scans, `parseUserPassword`,
`parseAccountHostPort`, `parseParams`, `parseDSNParams`) and the
defaulting/validation pass (`fillMissingConfigParameters`), together with the
pieces of the Go standard library the file uses (`net/url` query escaping,
`strconv` conversions, `strings` helpers).

Modelling conventions:
 * a Go string is a `List Char`; all inputs of interest are ASCII, so Go's
   byte-level indexing coincides with character indexing;
 * the package-global proxy variables (`proxyHost`, `proxyPort`, `proxyUser`,
   `proxyPassword`) are threaded explicitly as a `Proxy` record;
 * Go's in-place mutation of `*Config` is explicit state passing: `DSN`
   returns the final state of its argument next to its result;
 * fallible Go functions return `Except DsnErr`;
 * the backward `for` loops of `ParseDSN` are countdown recursions whose
   first `Nat` argument is `index + 1` (so `0` is loop exit).
-/

namespace Gosnowflake

/-- Characters of a Go string. -/
abbrev Str := List Char

/-- Placeholder character for out-of-range indexing (never a DSN delimiter;
all scans of `dsn.go` only read in-range positions). -/
def nulChar : Char := Char.ofNat 0

/-- The Go slice expression `s[i:j]`. -/
def slice (s : Str) (i j : Nat) : Str := (s.take j).drop i

/-- The Go index expression `s[i]`. -/
def chAt (s : Str) (i : Nat) : Char := s.getD i nulChar

/-- Fuelled upward scan: first index `k` with `lo ≤ k < lo + fuel` such that
`s[k] = c`. -/
def findFromA (s : Str) (c : Char) : Nat → Nat → Option Nat
  | 0, _ => none
  | fuel+1, lo => if chAt s lo = c then some lo else findFromA s c fuel (lo+1)

/-- First index `k` with `lo ≤ k < hi` and `s[k] = c` (a Go
`for k := lo; k < hi; k++` scan for a character). -/
def findFrom (s : Str) (c : Char) (lo hi : Nat) : Option Nat :=
  findFromA s c (hi - lo) lo

/-- `strings.HasPrefix pre s` / does `s` start with `pre`. -/
def strStartsWith : Str → Str → Bool
  | [], _ => true
  | _ :: _, [] => false
  | a :: as, b :: bs => a == b && strStartsWith as bs

/-- `strings.Index s sub`: position of the first occurrence of `sub` in `s`
(`none` for Go's `-1`). -/
def subIndex (sub : Str) : Str → Option Nat
  | [] => if sub = [] then some 0 else none
  | c :: t => if strStartsWith sub (c :: t) then some 0 else (subIndex sub t).map (· + 1)

/-- `strings.HasSuffix s suf`. -/
def hasSuffix (s suf : Str) : Bool :=
  suf.length ≤ s.length && s.drop (s.length - suf.length) == suf

/-- The byte-unreserved characters of `net/url` query escaping. -/
def isSafeByte (c : Char) : Bool :=
  c.isAlphanum || c == '-' || c == '_' || c == '.' || c == '~'

/-- Uppercase hexadecimal digit. -/
def hexDigitU (n : Nat) : Char :=
  if n < 10 then Char.ofNat (48 + n) else Char.ofNat (55 + n)

/-- `url.QueryEscape` on one character (ASCII bytes). -/
def queryEscapeChar (c : Char) : Str :=
  if isSafeByte c then [c]
  else if c = ' ' then ['+']
  else ['%', hexDigitU (c.toNat / 16 % 16), hexDigitU (c.toNat % 16)]

/-- `url.QueryEscape` (on ASCII strings). -/
def queryEscape : Str → Str
  | [] => []
  | c :: rest => queryEscapeChar c ++ queryEscape rest

/-- Numeric value of a hexadecimal digit character. -/
def hexVal (c : Char) : Option Nat :=
  if c.isDigit then some (c.toNat - 48)
  else if 97 ≤ c.toNat ∧ c.toNat ≤ 102 then some (c.toNat - 87)
  else if 65 ≤ c.toNat ∧ c.toNat ≤ 70 then some (c.toNat - 55)
  else none

/-- Errors surfaced by the DSN core.  `emptyAccount`, `emptyUsername` and
`emptyPassword` model the driver's `ErrEmptyAccount` / `ErrEmptyUsername` /
`ErrEmptyPassword` sentinels (declared in a sibling file of the package);
`failedToParsePort` models the `SnowflakeError` with code
`ErrCodeFailedToParsePort` carrying the offending substring; the remaining
constructors model the `net/url` and `strconv` error values. -/
inductive DsnErr where
  | emptyAccount : DsnErr
  | emptyUsername : DsnErr
  | emptyPassword : DsnErr
  | failedToParsePort : Str → DsnErr
  | escapeError : Str → DsnErr
  | parseBoolError : Str → DsnErr
  | parseIntError : Str → DsnErr
deriving DecidableEq, Repr

/-- `url.QueryUnescape` (on ASCII strings): `%XX` hex-decodes, `+` becomes a
space, everything else is copied; a malformed escape aborts with an error. -/
def queryUnescape : Str → Except DsnErr Str
  | [] => .ok []
  | c :: rest =>
      if c = '%' then
        match rest with
        | a :: b :: rest2 =>
            match hexVal a, hexVal b with
            | some x, some y => (queryUnescape rest2).map (fun t => Char.ofNat (16 * x + y) :: t)
            | _, _ => .error (.escapeError [c, a, b])
        | _ => .error (.escapeError (c :: rest))
      else if c = '+' then (queryUnescape rest).map (fun t => ' ' :: t)
      else (queryUnescape rest).map (fun t => c :: t)

/-- Decimal digit accumulation for `strconv` integer parsing. -/
def digitsValA : Str → Nat → Option Nat
  | [], acc => some acc
  | c :: rest, acc =>
      if c.isDigit then digitsValA rest (acc * 10 + (c.toNat - 48)) else none

/-- A nonempty all-digit string as a number. -/
def digitsNonempty : Str → Option Nat
  | [] => none
  | s => digitsValA s 0

/-- Sign handling of `strconv.ParseInt` (base 10). -/
def goParseIntCore : Str → Option Int
  | '+' :: rest => (digitsNonempty rest).map Int.ofNat
  | '-' :: rest => (digitsNonempty rest).map (fun n => -(Int.ofNat n))
  | s => (digitsNonempty s).map Int.ofNat

def int64Min : Int := -(2 ^ 63)
def int64Max : Int := 2 ^ 63 - 1

/-- `strconv.ParseInt s 10 64` (`none` is the error case, including the
int64 range check). -/
def goParseInt (s : Str) : Option Int :=
  match goParseIntCore s with
  | some v => if int64Min ≤ v ∧ v ≤ int64Max then some v else none
  | none => none

/-- `strconv.Atoi` (64-bit `int`). -/
def goAtoi (s : Str) : Option Int := goParseInt s

/-- `strconv.ParseBool`. -/
def goParseBool (s : Str) : Option Bool :=
  if s = "1".data ∨ s = "t".data ∨ s = "T".data ∨ s = "true".data ∨
      s = "TRUE".data ∨ s = "True".data then some true
  else if s = "0".data ∨ s = "f".data ∨ s = "F".data ∨ s = "false".data ∨
      s = "FALSE".data ∨ s = "False".data then some false
  else none

/-- Fuelled decimal digit emission. -/
def natDigitsA : Nat → Nat → Str → Str
  | 0, _, acc => acc
  | fuel+1, n, acc =>
      if n < 10 then Char.ofNat (48 + n) :: acc
      else natDigitsA fuel (n / 10) (Char.ofNat (48 + n % 10) :: acc)

/-- Decimal rendering of a natural number. -/
def natToStr (n : Nat) : Str := natDigitsA (n + 1) n []

/-- `strconv.FormatInt n 10` / `fmt` `%v` of an integer. -/
def intToStr (n : Int) : Str :=
  if n < 0 then '-' :: natToStr (-n).toNat else natToStr n.toNat

/-- `strconv.FormatBool`. -/
def boolToStr (b : Bool) : Str := if b then "true".data else "false".data

/-- `strings.Split s (singleton c)`. -/
def splitOnChar (c : Char) : Str → List Str
  | [] => [[]]
  | x :: xs =>
      if x = c then [] :: splitOnChar c xs
      else
        match splitOnChar c xs with
        | [] => [[x]]
        | h :: t => (x :: h) :: t

/-- `strings.SplitN v "=" 2`, as `some (before, after)` when `v` contains
`'='` (the length-2 case) and `none` otherwise. -/
def splitFirstEq : Str → Option (Str × Str)
  | [] => none
  | c :: rest =>
      if c = '=' then some ([], rest)
      else (splitFirstEq rest).map (fun p => (c :: p.1, p.2))

/-- Join pieces with `'&'` (how `url.Values.Encode` concatenates pairs). -/
def joinAmp : List Str → Str
  | [] => []
  | [x] => x
  | x :: y :: t => x ++ '&' :: joinAmp (y :: t)

/-- Go lexicographic (byte) string order, `s ≤ t`. -/
def strLe : Str → Str → Bool
  | [], _ => true
  | _ :: _, [] => false
  | a :: as, b :: bs => if a = b then strLe as bs else decide (a.toNat < b.toNat)

/-- Ordered insertion for the key sort of `url.Values.Encode`. -/
def insertPair (p : Str × Str) : List (Str × Str) → List (Str × Str)
  | [] => [p]
  | q :: qs => if strLe p.1 q.1 then p :: q :: qs else q :: insertPair p qs

/-- Sorting the key/value pairs by key, as `url.Values.Encode` sorts its keys
(all keys in this file are distinct, so any sort agrees with Go's). -/
def sortPairs : List (Str × Str) → List (Str × Str)
  | [] => []
  | p :: ps => insertPair p (sortPairs ps)

/-! ## The data model of dsn.go -/

/-- `Config` of dsn.go: the structured set of connection parameters.
`Params` models the Go `map[string]*string` as an association list with
insert-or-replace update. -/
structure Config where
  Account : Str
  User : Str
  Password : Str
  Database : Str
  Schema : Str
  Warehouse : Str
  Role : Str
  Region : Str
  Params : List (Str × Str)
  Protocol : Str
  Host : Str
  Port : Int
  Authenticator : Str
  Passcode : Str
  PasscodeInPassword : Bool
  LoginTimeout : Int
  RequestTimeout : Int
  Application : Str
  InsecureMode : Bool
deriving DecidableEq, Repr

/-- The package-global proxy variables of the driver, threaded explicitly. -/
structure Proxy where
  proxyHost : Str
  proxyPort : Int
  proxyUser : Str
  proxyPassword : Str
deriving DecidableEq, Repr

/-- The `Config` value `ParseDSN` starts from: Go zero values plus an empty
`Params` map. -/
def emptyConfig : Config where
  Account := []
  User := []
  Password := []
  Database := []
  Schema := []
  Warehouse := []
  Role := []
  Region := []
  Params := []
  Protocol := []
  Host := []
  Port := 0
  Authenticator := []
  Passcode := []
  PasscodeInPassword := false
  LoginTimeout := 0
  RequestTimeout := 0
  Application := []
  InsecureMode := false

/-- An arbitrary initial state for the proxy globals. -/
def emptyProxy : Proxy where
  proxyHost := []
  proxyPort := 0
  proxyUser := []
  proxyPassword := []

/-- Go map insertion `m[k] = v` (replace or append). -/
def insertParam (m : List (Str × Str)) (k v : Str) : List (Str × Str) :=
  match m with
  | [] => [(k, v)]
  | (k0, v0) :: rest => if k0 = k then (k, v) :: rest else (k0, v0) :: insertParam rest k v

/-- Association-list lookup for `Params`. -/
def lookupParam (m : List (Str × Str)) (k : Str) : Option Str :=
  match m with
  | [] => none
  | (k0, v0) :: rest => if k0 = k then some v0 else lookupParam rest k

def sfxDot : Str := ".snowflakecomputing.com".data
def sfxBare : Str := "snowflakecomputing.com".data

/-- `defaultLoginTimeout = 60 * time.Second` in nanoseconds. -/
def defaultLoginTimeout : Int := 60 * 1000000000
/-- `defaultRequestTimeout = 0 * time.Second`. -/
def defaultRequestTimeout : Int := 0
def defaultAuthenticator : Str := "snowflake".data

/-- Modelled from the spec: the process-wide default application identifier
(the `clientType` constant of the driver, declared in a sibling file of the
package that is not part of this repository slice; the spec only says it is a
fixed client identifier string, so its exact value is immaterial here — only
that it is a fixed nonempty constant). -/
def clientType : Str := "Go".data

/-- 64-bit two's-complement wraparound, for Go's wrapping signed multiply. -/
def wrap64 (n : Int) : Int := (n + 2 ^ 63).emod (2 ^ 64) - 2 ^ 63

/-! ## fillMissingConfigParameters -/

/-- The region/host reconciliation step of `fillMissingConfigParameters`:
if a region is set and the prefix of `host` before the first
`".snowflakecomputing.com"` does not already end with it, the region segment
is inserted. -/
def reconcileHost (host region : Str) : Str :=
  if region = [] then host
  else
    match subIndex sfxDot host with
    | some i =>
        if 1 ≤ i then
          if hasSuffix (host.take i) region then host
          else host.take i ++ '.' :: region ++ sfxDot
        else host
    | none => host

/-- `fillMissingConfigParameters`: validate the mandatory fields in order
(account, user, password), then fill `Protocol`, `Port`, reconcile
`Host` with `Region`, and fill `LoginTimeout`, `RequestTimeout`,
`Application`, `Authenticator`.  (In the Go code the assignments mutate
`cfg` in place, in this textual order; none of the earlier assignments is
read by a later one except `Host`/`Region`, which the record update
preserves exactly.) -/
def fillMissingConfigParameters (cfg : Config) : Except DsnErr Config :=
  if cfg.Account = [] then .error .emptyAccount
  else if cfg.User = [] then .error .emptyUsername
  else if cfg.Password = [] then .error .emptyPassword
  else .ok { cfg with
    Protocol := if cfg.Protocol = [] then "https".data else cfg.Protocol,
    Port := if cfg.Port = 0 then 443 else cfg.Port,
    Host := reconcileHost cfg.Host cfg.Region,
    LoginTimeout := if cfg.LoginTimeout = 0 then defaultLoginTimeout else cfg.LoginTimeout,
    RequestTimeout := if cfg.RequestTimeout = 0 then defaultRequestTimeout else cfg.RequestTimeout,
    Application := if cfg.Application = [] then clientType else cfg.Application,
    Authenticator := if cfg.Authenticator = [] then defaultAuthenticator else cfg.Authenticator }

/-! ## The segment parsers -/

/-- `parseUserPassword posAt dsn`: scan `dsn[0:posAt]` for the first `':'`;
before it is the user, after it (up to `posAt`) the password. -/
def parseUserPassword (posAt : Nat) (dsn : Str) : Str × Str :=
  match findFrom dsn ':' 0 posAt with
  | some k => (dsn.take k, slice dsn (k+1) posAt)
  | none => (dsn.take posAt, [])

/-- Shared tail of `parseAccountHostPort` after the `':'` scan: `host` is the
text before the colon (or the whole segment); when the port is zero and the
host does not end in the Snowflake domain, the segment is an account name,
the host is derived, the port defaults to 443, and an embedded region is
split out at the first dot. -/
def parseAccountHostPortTail (start k : Nat) (port : Int) (dsn : Str) :
    Except DsnErr (Str × Str × Str × Int) :=
  let host := slice dsn start k
  if port = 0 ∧ hasSuffix host sfxBare = false then
    let account := host
    let host2 := account ++ sfxDot
    match subIndex ['.'] account with
    | some d =>
        if 0 < d then .ok (account.drop (d+1), account.take d, host2, 443)
        else .ok ([], account, host2, 443)
    | none => .ok ([], account, host2, 443)
  else .ok ([], [], host, port)

/-- `parseAccountHostPort posAt posSlash dsn`: parse `dsn[posAt+1:posSlash]`
as `account` or `host:port`; returns `(region, account, host, port)`.
`posAt` is `-1` when there is no `'@'`. -/
def parseAccountHostPort (posAt : Int) (posSlash : Nat) (dsn : Str) :
    Except DsnErr (Str × Str × Str × Int) :=
  let start : Nat := (posAt + 1).toNat
  match findFrom dsn ':' start posSlash with
  | some k =>
      match goAtoi (slice dsn (k+1) posSlash) with
      | none => .error (.failedToParsePort (slice dsn (k+1) posSlash))
      | some port => parseAccountHostPortTail start k port dsn
  | none => parseAccountHostPortTail start (max start posSlash) 0 dsn

/-! ## The query-string decoder -/

/-- The `switch param[0]` dispatch of `parseDSNParams` on one decoded
key/value pair. -/
def dispatchParam (cfg : Config) (px : Proxy) (key value : Str) :
    Except DsnErr (Config × Proxy) :=
  if key = "account".data then .ok ({cfg with Account := value}, px)
  else if key = "warehouse".data then .ok ({cfg with Warehouse := value}, px)
  else if key = "database".data then .ok ({cfg with Database := value}, px)
  else if key = "schema".data then .ok ({cfg with Schema := value}, px)
  else if key = "role".data then .ok ({cfg with Role := value}, px)
  else if key = "region".data then .ok ({cfg with Region := value}, px)
  else if key = "protocol".data then .ok ({cfg with Protocol := value}, px)
  else if key = "passcode".data then .ok ({cfg with Passcode := value}, px)
  else if key = "passcodeInPassword".data then
    match goParseBool value with
    | some b => .ok ({cfg with PasscodeInPassword := b}, px)
    | none => .error (.parseBoolError value)
  else if key = "loginTimeout".data then
    match goParseInt value with
    | some v => .ok ({cfg with LoginTimeout := wrap64 (v * 1000000000)}, px)
    | none => .error (.parseIntError value)
  else if key = "application".data then .ok ({cfg with Application := value}, px)
  else if key = "authenticator".data then .ok ({cfg with Authenticator := value}, px)
  else if key = "insecureMode".data then
    match goParseBool value with
    | some b => .ok ({cfg with InsecureMode := b}, px)
    | none => .error (.parseBoolError value)
  else if key = "proxyHost".data then .ok (cfg, {px with proxyHost := value})
  else if key = "proxyPort".data then
    match goParseInt value with
    | some v => .ok (cfg, {px with proxyPort := v})
    | none => .error (.parseIntError value)
  else if key = "proxyUser".data then .ok (cfg, {px with proxyUser := value})
  else if key = "proxyPassword".data then .ok (cfg, {px with proxyPassword := value})
  else .ok ({cfg with Params := insertParam cfg.Params key value}, px)

/-- One pass of the `parseDSNParams` loop body: a piece without `'='` is
skipped, otherwise its value is query-unescaped and dispatched. -/
def processOneParam (st : Config × Proxy) (piece : Str) : Except DsnErr (Config × Proxy) :=
  match splitFirstEq piece with
  | none => .ok st
  | some (key, raw) =>
      match queryUnescape raw with
      | .error e => .error e
      | .ok value => dispatchParam st.1 st.2 key value

/-- The `parseDSNParams` loop over the `'&'`-separated pieces. -/
def processParams (st : Config × Proxy) : List Str → Except DsnErr (Config × Proxy)
  | [] => .ok st
  | piece :: rest =>
      match processOneParam st piece with
      | .error e => .error e
      | .ok st2 => processParams st2 rest

/-- `parseDSNParams cfg params`. -/
def parseDSNParams (st : Config × Proxy) (params : Str) : Except DsnErr (Config × Proxy) :=
  processParams st (splitOnChar '&' params)

/-- `parseParams cfg pos dsn`: find the first `'?'` at or after `pos + 1`
and decode everything after it; without `'?'` nothing happens. -/
def parseParams (st : Config × Proxy) (pos : Int) (dsn : Str) :
    Except DsnErr (Config × Proxy) :=
  match findFrom dsn '?' (pos + 1).toNat dsn.length with
  | some j => parseDSNParams st (dsn.drop (j+1))
  | none => .ok st

/-! ## ParseDSN -/

/-- The inner backward scan of `ParseDSN`'s slash branch
(`for j = i - 1; j ≥ 0; j--`): first argument is `j + 1`.  Records the
leftmost second slash seen (`posSecondSlash`, initially `i`), whether one was
seen, and stops at the first `'@'`, where user and password are parsed.
Returns `(j, secondSlash, posSecondSlash, user, password)` with `j = -1`
when no `'@'` was found. -/
def innerLoop (dsn : Str) : Nat → Nat → Bool → Int × Bool × Nat × Str × Str
  | 0, pss, ss => (-1, ss, pss, [], [])
  | j+1, pss, ss =>
      if chAt dsn j = '@' then
        ((j : Int), ss, pss, (parseUserPassword j dsn).1, (parseUserPassword j dsn).2)
      else if chAt dsn j = '/' then innerLoop dsn j j true
      else innerLoop dsn j pss ss

/-- The body run when the outer scan of `ParseDSN` finds the last `'/'` at
position `i` with `posQ` the first `'?'` to its right (or the length):
credentials and account/host/port when `i > 0`, then the query parameters,
then the database/schema segments. -/
def slashBody (px : Proxy) (dsn : Str) (i posQ : Nat) : Except DsnErr (Config × Proxy) :=
  let step1 : Except DsnErr (Config × Bool × Nat) :=
    if 0 < i then
      match innerLoop dsn i i false with
      | (j, ss, pss, user, password) =>
        match parseAccountHostPort j pss dsn with
        | .error e => .error e
        | .ok (region, account, host, port) =>
            .ok ({emptyConfig with User := user, Password := password, Region := region, Account := account, Host := host, Port := port}, ss, pss)
    else .ok (emptyConfig, false, i)
  match step1 with
  | .error e => .error e
  | .ok (cfg1, ss, pss) =>
    match parseParams (cfg1, px) (i : Int) dsn with
    | .error e => .error e
    | .ok (cfg2, px2) =>
        if ss then
          .ok ({cfg2 with Database := slice dsn (pss+1) i, Schema := slice dsn (i+1) posQ}, px2)
        else
          .ok ({cfg2 with Database := slice dsn (pss+1) posQ, Schema := "public".data}, px2)

/-- The backward scan of `ParseDSN`'s no-slash branch
(`for j = len(dsn) - 1; j ≥ 0; j--`): first argument is `j + 1`.  Tracks the
leftmost `'?'` seen and stops at the first `'@'`, where user and password
are parsed.  Returns `(j, posQuestion, user, password)` with `j = -1` when
no `'@'` was found. -/
def loop2 (dsn : Str) : Nat → Nat → Int × Nat × Str × Str
  | 0, posQ => (-1, posQ, [], [])
  | j+1, posQ =>
      if chAt dsn j = '@' then
        ((j : Int), posQ, (parseUserPassword j dsn).1, (parseUserPassword j dsn).2)
      else if chAt dsn j = '?' then loop2 dsn j j
      else loop2 dsn j posQ

/-- The no-slash branch of `ParseDSN`: scan for `'@'`/`'?'`, parse the
account/host/port segment, then the query parameters. -/
def noSlashBranch (px : Proxy) (dsn : Str) (posQ0 : Nat) : Except DsnErr (Config × Proxy) :=
  match loop2 dsn dsn.length posQ0 with
  | (j, posQ, user, password) =>
    match parseAccountHostPort j posQ dsn with
    | .error e => .error e
    | .ok (region, account, host, port) =>
        parseParams ({emptyConfig with User := user, Password := password, Region := region, Account := account, Host := host, Port := port}, px) ((posQ : Int) - 1) dsn

/-- The outer backward scan of `ParseDSN` (`for i = len(dsn) - 1; i ≥ 0;
i--`): first argument is `i + 1`; `'?'` updates `posQ`, the first `'/'`
(i.e. the last slash of the string) runs the slash body, falling off the
left end runs the no-slash branch. -/
def loop1 (px : Proxy) (dsn : Str) : Nat → Nat → Except DsnErr (Config × Proxy)
  | 0, posQ => noSlashBranch px dsn posQ
  | i+1, posQ =>
      if chAt dsn i = '/' then slashBody px dsn i posQ
      else loop1 px dsn i (if chAt dsn i = '?' then i else posQ)

/-- The account-from-host derivation after the scans: when no account was
found but the host has the Snowflake domain suffix and its first dot is not
at position 0, the account is the host prefix before the first dot. -/
def deriveAccount (cfg : Config) : Config :=
  if cfg.Account = [] ∧ hasSuffix cfg.Host sfxDot = true then
    match subIndex ['.'] cfg.Host with
    | some d => if 0 < d then {cfg with Account := cfg.Host.take d} else cfg
    | none => cfg
  else cfg

/-- The tail of `ParseDSN` after the scans: derive the account from the
host, run `fillMissingConfigParameters`, then query-unescape `Database`,
`Schema`, `Role` and `Warehouse` (in this order, each failure aborting). -/
def postPhase (st : Config × Proxy) : Except DsnErr (Config × Proxy) :=
  match fillMissingConfigParameters (deriveAccount st.1) with
  | .error e => .error e
  | .ok c2 =>
    match queryUnescape c2.Database with
    | .error e => .error e
    | .ok db =>
      match queryUnescape c2.Schema with
      | .error e => .error e
      | .ok sc =>
        match queryUnescape c2.Role with
        | .error e => .error e
        | .ok ro =>
          match queryUnescape c2.Warehouse with
          | .error e => .error e
          | .ok wh =>
              .ok ({c2 with Database := db, Schema := sc, Role := ro, Warehouse := wh}, st.2)

/-- `ParseDSN dsn`: parse the DSN string to a `Config` (with the proxy
globals threaded through). -/
def ParseDSN (dsn : Str) (px : Proxy) : Except DsnErr (Config × Proxy) :=
  match loop1 px dsn dsn.length dsn.length with
  | .error e => .error e
  | .ok st => postPhase st

/-! ## DSN (the serializer) -/

/-- The query pairs `DSN` emits, in program order (only fields that differ
from their defaults). -/
def buildParams (c : Config) : List (Str × Str) :=
  (if c.Database = [] then [] else [("database".data, c.Database)]) ++
  (if c.Schema = [] then [] else [("schema".data, c.Schema)]) ++
  (if c.Warehouse = [] then [] else [("warehouse".data, c.Warehouse)]) ++
  (if c.Role = [] then [] else [("role".data, c.Role)]) ++
  (if c.Region = [] then [] else [("region".data, c.Region)]) ++
  (if c.Authenticator = defaultAuthenticator then []
   else [("authenticator".data, c.Authenticator)]) ++
  (if c.Passcode = [] then [] else [("passcode".data, c.Passcode)]) ++
  (if c.PasscodeInPassword then [("passcodeInPassword".data, boolToStr c.PasscodeInPassword)]
   else []) ++
  (if c.LoginTimeout = defaultLoginTimeout then []
   else [("loginTimeout".data, intToStr (Int.tdiv c.LoginTimeout 1000000000))]) ++
  (if c.RequestTimeout = defaultRequestTimeout then []
   else [("requestTimeout".data, intToStr (Int.tdiv c.RequestTimeout 1000000000))]) ++
  (if c.Application = clientType then [] else [("application".data, c.Application)])

/-- `url.Values.Encode`: keys sorted, each pair query-escaped and joined
with `'&'`. -/
def encodeValues (l : List (Str × Str)) : Str :=
  joinAmp ((sortPairs l).map (fun p => queryEscape p.1 ++ '=' :: queryEscape p.2))

/-- First mutation step of `DSN`: derive `Host` from `Account` (and
`Region`) when it is unset. -/
def dsnHostStep (cfg : Config) : Config :=
  if cfg.Host = [] then
    (if cfg.Region = [] then {cfg with Host := cfg.Account ++ sfxDot}
     else {cfg with Host := cfg.Account ++ '.' :: cfg.Region ++ sfxDot})
  else cfg

/-- Second mutation step of `DSN`: split an embedded region out of
`Account` at the first dot (when that dot is not at position 0). -/
def dsnRegionStep (cfg : Config) : Config :=
  match subIndex ['.'] cfg.Account with
  | some d =>
      if 0 < d then {cfg with Region := cfg.Account.drop (d+1), Account := cfg.Account.take d}
      else cfg
  | none => cfg

/-- The string `DSN` assembles from a defaulted `Config`:
`user:password@host:port` plus the non-empty query. -/
def buildDsnString (c : Config) : Str :=
  let q := encodeValues (buildParams c)
  c.User ++ ':' :: c.Password ++ '@' :: c.Host ++ ':' :: intToStr c.Port ++
    (if q = [] then [] else '?' :: q)

/-- `DSN cfg`: serialize a `Config`.  The Go function mutates its argument
through the pointer (host derivation, embedded-region split, defaulting);
the second component is the final state of that argument — on validation
failure the state after the first two mutation steps, as in Go. -/
def DSN (cfg : Config) : Except DsnErr Str × Config :=
  let c2 := dsnRegionStep (dsnHostStep cfg)
  match fillMissingConfigParameters c2 with
  | .error e => (.error e, c2)
  | .ok c3 => (.ok (buildDsnString c3), c3)

instance {ε α : Type} [DecidableEq ε] [DecidableEq α] : DecidableEq (Except ε α) := fun a b =>
  match a, b with
  | .ok x, .ok y =>
      if h : x = y then isTrue (by rw [h]) else isFalse (fun hc => h (Except.ok.inj hc))
  | .error x, .error y =>
      if h : x = y then isTrue (by rw [h]) else isFalse (fun hc => h (Except.error.inj hc))
  | .ok _, .error _ => isFalse (fun hc => Except.noConfusion hc)
  | .error _, .ok _ => isFalse (fun hc => Except.noConfusion hc)

/-- The query keys `parseDSNParams` recognizes (everything else goes to
`Params`). -/
def recognizedKeys : List Str :=
  ["account".data, "warehouse".data, "database".data, "schema".data, "role".data,
   "region".data, "protocol".data, "passcode".data, "passcodeInPassword".data,
   "loginTimeout".data, "application".data, "authenticator".data, "insecureMode".data,
   "proxyHost".data, "proxyPort".data, "proxyUser".data, "proxyPassword".data]

/-- All characters alphanumeric: the clean fragment of strings for which
query escaping and unescaping are the identity and that contain none of the
DSN delimiters; used to state the round-trip property. -/
def cleanStr (s : Str) : Bool := s.all (fun c => c.isAlphanum)

/-- The `'?'`-tracking accumulator of the outer backward scan of `ParseDSN`,
isolated for reasoning about `loop1`. -/
def qScan (d : Str) : Nat → Nat → Nat
  | 0, posQ => posQ
  | i+1, posQ => qScan d i (if chAt d i = '?' then i else posQ)

/-- The effect of one recognized session-field query pair (`database`,
`schema`, `warehouse`, `role`) on a `Config`. -/
def applySession (cfg : Config) (k v : Str) : Config :=
  if k = "database".data then {cfg with Database := v}
  else if k = "schema".data then {cfg with Schema := v}
  else if k = "warehouse".data then {cfg with Warehouse := v}
  else if k = "role".data then {cfg with Role := v}
  else cfg

/-- Folding `applySession` over a list of pairs. -/
def applyQ : Config → List (Str × Str) → Config
  | cfg, [] => cfg
  | cfg, pr :: rest => applyQ (applySession cfg pr.1 pr.2) rest

/-- A key/value pair as the query piece `key=value`. -/
def renderPair (pr : Str × Str) : Str := pr.1 ++ '=' :: pr.2

/-- The shape of the strings `DSN` produces on the clean fragment:
`user:password@account.snowflakecomputing.com:443` followed by `rest`
(empty or `'?'` and the encoded query). -/
def cleanDsn (u p a rest : Str) : Str :=
  u ++ ':' :: p ++ '@' :: a ++ sfxDot ++ ':' :: '4' :: '4' :: '3' :: rest

/-- The `Config` state reached by `ParseDSN`'s segment scans on a clean DSN,
before query parameters are applied. -/
def baseCfg (u p a : Str) : Config :=
  { emptyConfig with User := u, Password := p, Host := a ++ sfxDot, Port := 443 }

/-- The defaulted Config on the clean fragment. -/
def cleanFilled (u p a db sc wh ro : Str) : Config where
  Account := a
  User := u
  Password := p
  Database := db
  Schema := sc
  Warehouse := wh
  Role := ro
  Region := []
  Params := []
  Protocol := "https".data
  Host := a ++ sfxDot
  Port := 443
  Authenticator := defaultAuthenticator
  Passcode := []
  PasscodeInPassword := false
  LoginTimeout := defaultLoginTimeout
  RequestTimeout := 0
  Application := clientType
  InsecureMode := false

/-! ## Helper lemmas -/

theorem processParams_filter (pieces : List Str) : ∀ st : Config × Proxy,
    processParams st (pieces.filter (fun v => (splitFirstEq v).isSome)) =
      processParams st pieces := by
  induction pieces with
  | nil => intro st; rfl
  | cons piece rest ih =>
      intro st
      cases hs : splitFirstEq piece with
      | none =>
          rw [show (piece :: rest).filter (fun v => (splitFirstEq v).isSome) =
                rest.filter (fun v => (splitFirstEq v).isSome) by simp [List.filter_cons, hs]]
          conv_rhs => rw [processParams]
          rw [show processOneParam st piece = .ok st by simp [processOneParam, hs]]
          exact ih st
      | some pr =>
          rw [show (piece :: rest).filter (fun v => (splitFirstEq v).isSome) =
                piece :: rest.filter (fun v => (splitFirstEq v).isSome) by
              simp [List.filter_cons, hs]]
          simp only [processParams]
          cases hp : processOneParam st piece with
          | error e => rfl
          | ok st2 => exact ih st2

theorem processParams_append (l1 l2 : List Str) : ∀ st : Config × Proxy,
    processParams st (l1 ++ l2) =
      (processParams st l1).bind (fun st2 => processParams st2 l2) := by
  induction l1 with
  | nil => intro st; rfl
  | cons p rest ih =>
      intro st
      simp only [List.cons_append, processParams]
      cases hp : processOneParam st p with
      | error e => rfl
      | ok st2 => exact ih st2

theorem splitOnChar_no_sep (c : Char) (s : Str) (h : c ∉ s) : splitOnChar c s = [s] := by
  induction s with
  | nil => rfl
  | cons x xs ih =>
      rw [List.mem_cons, not_or] at h
      rw [splitOnChar, if_neg (fun he => h.1 he.symm), ih h.2]

theorem splitOnChar_sep_append (c : Char) (piece rest : Str) (h : c ∉ piece) :
    splitOnChar c (piece ++ c :: rest) = piece :: splitOnChar c rest := by
  induction piece with
  | nil => simp [splitOnChar]
  | cons x xs ih =>
      rw [List.mem_cons, not_or] at h
      rw [List.cons_append, splitOnChar, if_neg (fun he => h.1 he.symm), ih h.2]

theorem splitFirstEq_concat (k v : Str) (h : '=' ∉ k) :
    splitFirstEq (k ++ '=' :: v) = some (k, v) := by
  induction k with
  | nil => simp [splitFirstEq]
  | cons x xs ih =>
      rw [List.mem_cons, not_or] at h
      rw [List.cons_append, splitFirstEq, if_neg (fun he => h.1 he.symm), ih h.2]
      rfl

theorem queryUnescape_cons_plain (c : Char) (rest : Str) (hc1 : ¬ c = '%') (hc2 : ¬ c = '+') :
    queryUnescape (c :: rest) = (queryUnescape rest).map (fun t => c :: t) := by
  cases rest with
  | nil => simp [queryUnescape, hc1, hc2]
  | cons a rest1 =>
      cases rest1 with
      | nil => simp [queryUnescape, hc1, hc2]
      | cons b rest2 => simp [queryUnescape, hc1, hc2]

theorem queryUnescape_plain (s : Str) (h1 : '%' ∉ s) (h2 : '+' ∉ s) :
    queryUnescape s = .ok s := by
  induction s with
  | nil => rfl
  | cons c rest ih =>
      rw [List.mem_cons, not_or] at h1 h2
      rw [queryUnescape_cons_plain c rest (fun he => h1.1 he.symm) (fun he => h2.1 he.symm),
        ih h1.2 h2.2]
      rfl

/-- The fields of `Config` that neither `DSN`'s mutation steps nor the
defaulting pass ever change in value: `frameEq a b` says `a` and `b` agree on
all of them. -/
def frameEq (a b : Config) : Prop :=
  a.User = b.User ∧ a.Password = b.Password ∧ a.Database = b.Database ∧
  a.Schema = b.Schema ∧ a.Warehouse = b.Warehouse ∧ a.Role = b.Role ∧
  a.Params = b.Params ∧ a.Passcode = b.Passcode ∧
  a.PasscodeInPassword = b.PasscodeInPassword ∧ a.InsecureMode = b.InsecureMode ∧
  a.RequestTimeout = b.RequestTimeout

theorem frameEq_refl (a : Config) : frameEq a a :=
  ⟨rfl, rfl, rfl, rfl, rfl, rfl, rfl, rfl, rfl, rfl, rfl⟩

theorem frameEq_trans {a b c : Config} (h1 : frameEq a b) (h2 : frameEq b c) : frameEq a c := by
  obtain ⟨x1, x2, x3, x4, x5, x6, x7, x8, x9, x10, x11⟩ := h1
  obtain ⟨y1, y2, y3, y4, y5, y6, y7, y8, y9, y10, y11⟩ := h2
  exact ⟨x1.trans y1, x2.trans y2, x3.trans y3, x4.trans y4, x5.trans y5, x6.trans y6,
    x7.trans y7, x8.trans y8, x9.trans y9, x10.trans y10, x11.trans y11⟩

theorem dsnHostStep_frame (cfg : Config) : frameEq (dsnHostStep cfg) cfg := by
  unfold dsnHostStep
  split_ifs <;> exact frameEq_refl _

theorem dsnRegionStep_frame (cfg : Config) : frameEq (dsnRegionStep cfg) cfg := by
  unfold dsnRegionStep
  cases hsi : subIndex ['.'] cfg.Account with
  | none => exact frameEq_refl _
  | some d =>
      dsimp only
      split_ifs <;> exact frameEq_refl _

theorem fill_frame (cfg c : Config) (h : fillMissingConfigParameters cfg = .ok c) :
    frameEq c cfg := by
  by_cases ha : cfg.Account = []
  · simp [fillMissingConfigParameters, ha] at h
  by_cases hu : cfg.User = []
  · simp [fillMissingConfigParameters, ha, hu] at h
  by_cases hp : cfg.Password = []
  · simp [fillMissingConfigParameters, ha, hu, hp] at h
  simp only [fillMissingConfigParameters, if_neg ha, if_neg hu, if_neg hp] at h
  have hrec := Except.ok.inj h
  refine ⟨?_, ?_, ?_, ?_, ?_, ?_, ?_, ?_, ?_, ?_, ?_⟩ <;> rw [← hrec]
  show (if cfg.RequestTimeout = 0 then defaultRequestTimeout else cfg.RequestTimeout) =
    cfg.RequestTimeout
  split_ifs with hh
  · rw [hh]; rfl
  · rfl

theorem fill_ok_filled (cfg c : Config) (h : fillMissingConfigParameters cfg = .ok c) :
    ¬ c.Account = [] ∧ ¬ c.User = [] ∧ ¬ c.Password = [] ∧ ¬ c.Protocol = [] ∧
    ¬ c.Port = 0 ∧ ¬ c.LoginTimeout = 0 ∧ ¬ c.Application = [] ∧ ¬ c.Authenticator = [] := by
  by_cases ha : cfg.Account = []
  · simp [fillMissingConfigParameters, ha] at h
  by_cases hu : cfg.User = []
  · simp [fillMissingConfigParameters, ha, hu] at h
  by_cases hp : cfg.Password = []
  · simp [fillMissingConfigParameters, ha, hu, hp] at h
  simp only [fillMissingConfigParameters, if_neg ha, if_neg hu, if_neg hp] at h
  have hrec := Except.ok.inj h
  refine ⟨?_, ?_, ?_, ?_, ?_, ?_, ?_, ?_⟩ <;> rw [← hrec]
  · exact ha
  · exact hu
  · exact hp
  · show ¬ (if cfg.Protocol = [] then "https".data else cfg.Protocol) = []
    split_ifs with hh
    · decide
    · exact hh
  · show ¬ (if cfg.Port = 0 then (443 : Int) else cfg.Port) = 0
    split_ifs with hh
    · decide
    · exact hh
  · show ¬ (if cfg.LoginTimeout = 0 then defaultLoginTimeout else cfg.LoginTimeout) = 0
    split_ifs with hh
    · decide
    · exact hh
  · show ¬ (if cfg.Application = [] then clientType else cfg.Application) = []
    split_ifs with hh
    · decide
    · exact hh
  · show ¬ (if cfg.Authenticator = [] then defaultAuthenticator else cfg.Authenticator) = []
    split_ifs with hh
    · decide
    · exact hh

theorem fill_of_filled (c : Config) (ha : ¬ c.Account = []) (hu : ¬ c.User = [])
    (hp : ¬ c.Password = []) (hproto : ¬ c.Protocol = []) (hport : ¬ c.Port = 0)
    (hlt : ¬ c.LoginTimeout = 0) (happ : ¬ c.Application = [])
    (hauth : ¬ c.Authenticator = []) :
    fillMissingConfigParameters c = .ok { c with Host := reconcileHost c.Host c.Region } := by
  simp only [fillMissingConfigParameters]
  rw [if_neg ha, if_neg hu, if_neg hp, if_neg hproto, if_neg hport, if_neg hlt,
    if_neg happ, if_neg hauth]
  by_cases hrt : c.RequestTimeout = 0
  · rw [if_pos hrt, show defaultRequestTimeout = (0 : Int) from rfl, ← hrt]
  · rw [if_neg hrt]

theorem dispatch_default (cfg : Config) (px : Proxy) (k w : Str) (hk : k ∉ recognizedKeys) :
    dispatchParam cfg px k w = .ok ({ cfg with Params := insertParam cfg.Params k w }, px) := by
  simp only [recognizedKeys, List.mem_cons, List.not_mem_nil, or_false, not_or] at hk
  obtain ⟨n1, n2, n3, n4, n5, n6, n7, n8, n9, n10, n11, n12, n13, n14, n15, n16, n17⟩ := hk
  simp only [dispatchParam]
  rw [if_neg n1, if_neg n2, if_neg n3, if_neg n4, if_neg n5, if_neg n6, if_neg n7, if_neg n8,
    if_neg n9, if_neg n10, if_neg n11, if_neg n12, if_neg n13, if_neg n14, if_neg n15,
    if_neg n16, if_neg n17]

theorem dispatch_pinp_err (cfg : Config) (px : Proxy) (w : Str) (hb : goParseBool w = none) :
    dispatchParam cfg px ("passcodeInPassword".data) w = .error (.parseBoolError w) := by
  simp only [dispatchParam]
  rw [if_neg (by decide), if_neg (by decide), if_neg (by decide), if_neg (by decide),
    if_neg (by decide), if_neg (by decide), if_neg (by decide), if_neg (by decide),
    if_pos trivial, hb]

theorem dispatch_insecure_err (cfg : Config) (px : Proxy) (w : Str) (hb : goParseBool w = none) :
    dispatchParam cfg px ("insecureMode".data) w = .error (.parseBoolError w) := by
  simp only [dispatchParam]
  rw [if_neg (by decide), if_neg (by decide), if_neg (by decide), if_neg (by decide),
    if_neg (by decide), if_neg (by decide), if_neg (by decide), if_neg (by decide),
    if_neg (by decide), if_neg (by decide), if_neg (by decide), if_neg (by decide),
    if_pos trivial, hb]

theorem dispatch_login_err (cfg : Config) (px : Proxy) (w : Str) (hb : goParseInt w = none) :
    dispatchParam cfg px ("loginTimeout".data) w = .error (.parseIntError w) := by
  simp only [dispatchParam]
  rw [if_neg (by decide), if_neg (by decide), if_neg (by decide), if_neg (by decide),
    if_neg (by decide), if_neg (by decide), if_neg (by decide), if_neg (by decide),
    if_neg (by decide), if_pos trivial, hb]

theorem dispatch_proxyport_err (cfg : Config) (px : Proxy) (w : Str) (hb : goParseInt w = none) :
    dispatchParam cfg px ("proxyPort".data) w = .error (.parseIntError w) := by
  simp only [dispatchParam]
  rw [if_neg (by decide), if_neg (by decide), if_neg (by decide), if_neg (by decide),
    if_neg (by decide), if_neg (by decide), if_neg (by decide), if_neg (by decide),
    if_neg (by decide), if_neg (by decide), if_neg (by decide), if_neg (by decide),
    if_neg (by decide), if_neg (by decide), if_pos trivial, hb]

/-- A single well-formed pair whose value decodes cleanly reaches the
dispatch with its key and the decoded value. -/
theorem parseDSNParams_single (st : Config × Proxy) (k raw w : Str) (hk : '&' ∉ k)
    (he : '=' ∉ k) (hr : '&' ∉ raw) (hu : queryUnescape raw = .ok w) :
    parseDSNParams st (k ++ '=' :: raw) = dispatchParam st.1 st.2 k w := by
  have hamp : ('&' : Char) ∉ (k ++ '=' :: raw) := by
    intro hm
    rcases List.mem_append.mp hm with h | h
    · exact hk h
    · rcases List.mem_cons.mp h with h | h
      · exact absurd h (by decide)
      · exact hr h
  rw [parseDSNParams, splitOnChar_no_sep _ _ hamp]
  simp only [processParams, processOneParam, splitFirstEq_concat k raw he, hu]
  cases hd : dispatchParam st.1 st.2 k w with
  | error e => rfl
  | ok st2 => rfl

/-! ## Claim theorems -/

/-- C2: `ParseDSN` applied to the exact string `"user:pass@acc/db/sch?warehouse=wh"`
succeeds and returns a Config with `User = "user"`, `Password = "pass"`,
`Account = "acc"`, `Host = "acc.snowflakecomputing.com"`, `Port = 443`,
`Database = "db"`, `Schema = "sch"`, `Warehouse = "wh"` (the remaining fields
are the filled defaults, and the proxy globals are untouched). -/
theorem C2_parse_concrete :
    ParseDSN ("user:pass@acc/db/sch?warehouse=wh".data) emptyProxy =
      .ok ({ emptyConfig with
        Account := "acc".data, User := "user".data, Password := "pass".data,
        Database := "db".data, Schema := "sch".data, Warehouse := "wh".data,
        Protocol := "https".data, Host := "acc.snowflakecomputing.com".data, Port := 443,
        Authenticator := defaultAuthenticator, LoginTimeout := defaultLoginTimeout,
        Application := clientType }, emptyProxy) := by
  decide

/-- C3: for every `Config` with an empty `Account`, the defaulting pass
fails with `EmptyAccount` regardless of the other fields (in particular the
account check precedes the user and password checks), and `ParseDSN` on
`"user:pass@/db"`, whose account segment is empty, fails with `EmptyAccount`. -/
theorem C3_empty_account :
    (∀ cfg : Config, cfg.Account = [] →
        fillMissingConfigParameters cfg = .error DsnErr.emptyAccount) ∧
    ParseDSN ("user:pass@/db".data) emptyProxy = .error DsnErr.emptyAccount := by
  constructor
  · intro cfg h
    simp [fillMissingConfigParameters, h]
  · decide

/-- Witness for C3: the account check fires on a concrete `Config` whose
`User` and `Password` are also empty, so it indeed runs first. -/
theorem C3_empty_account_witness :
    fillMissingConfigParameters emptyConfig = .error DsnErr.emptyAccount :=
  C3_empty_account.1 emptyConfig rfl

/-- C4 counterexample: `DSN` is not side-effect free on its input.  On the
Config with `Account = "ac"`, `User = "u"`, `Password = "p"` (all other
fields zero), the final state of the argument after the call has
`Host = "ac.snowflakecomputing.com"` while the input had `Host = ""`, so
not every field holds the value it held before the call. -/
theorem C4_counterexample :
    (DSN { emptyConfig with Account := "ac".data, User := "u".data, Password := "p".data }).2.Host = "ac.snowflakecomputing.com".data ∧
    ({ emptyConfig with Account := "ac".data, User := "u".data, Password := "p".data } : Config).Host = [] ∧
    (DSN { emptyConfig with Account := "ac".data, User := "u".data, Password := "p".data }).2 ≠
      { emptyConfig with Account := "ac".data, User := "u".data, Password := "p".data } := by
  decide

/-- C4 (amended): `DSN` mutates its input `Config` in place (deriving `Host`
when empty, splitting an embedded region out of `Account`, and applying the
defaulting pass), so it is not side-effect free; only the fields those
passes never change — `User`, `Password`, `Database`, `Schema`,
`Warehouse`, `Role`, `Params`, `Passcode`, `PasscodeInPassword`,
`InsecureMode`, `RequestTimeout` — are guaranteed to hold the same values
after the call (`frameEq`), whether or not serialization succeeds. -/
theorem C4_amended : ∀ cfg : Config, frameEq (DSN cfg).2 cfg := by
  intro cfg
  have h12 := frameEq_trans (dsnRegionStep_frame (dsnHostStep cfg)) (dsnHostStep_frame cfg)
  simp only [DSN]
  cases hf : fillMissingConfigParameters (dsnRegionStep (dsnHostStep cfg)) with
  | error e =>
      dsimp only
      exact h12
  | ok c3 =>
      dsimp only
      exact frameEq_trans (fill_frame _ _ hf) h12

/-- C5 counterexample: the defaulting pass is not idempotent.  On the Config
with `Account = "a"`, `User = "u"`, `Password = "p"`,
`Region = "x.snowflakecomputing.comy"`, `Host = "h.snowflakecomputing.com"`,
the first application succeeds and rewrites the host, but the second
application rewrites it again (the first occurrence of
`".snowflakecomputing.com"` now falls inside the inserted region segment),
so running it twice differs from running it once. -/
theorem C5_counterexample :
    (fillMissingConfigParameters { emptyConfig with Account := "a".data, User := "u".data, Password := "p".data, Region := "x.snowflakecomputing.comy".data, Host := "h.snowflakecomputing.com".data }).bind fillMissingConfigParameters ≠
      fillMissingConfigParameters { emptyConfig with Account := "a".data, User := "u".data, Password := "p".data, Region := "x.snowflakecomputing.comy".data, Host := "h.snowflakecomputing.com".data } := by
  decide

/-- C5 (amended): for every `Config` on which the defaulting pass succeeds,
a second application also succeeds and leaves every field unchanged except
possibly `Host`, which is re-run through the region reconciliation; when the
region is empty the second application is the identity (full idempotence).
Full idempotence can fail only through the host/region rewrite, as the
counterexample shows. -/
theorem C5_amended : ∀ cfg c : Config, fillMissingConfigParameters cfg = .ok c →
    (fillMissingConfigParameters c = .ok { c with Host := reconcileHost c.Host c.Region }) ∧
    (c.Region = [] → fillMissingConfigParameters c = .ok c) := by
  intro cfg c h
  obtain ⟨ha, hu, hp, hproto, hport, hlt, happ, hauth⟩ := fill_ok_filled cfg c h
  have hmain := fill_of_filled c ha hu hp hproto hport hlt happ hauth
  refine ⟨hmain, fun hr => ?_⟩
  have hH : reconcileHost c.Host c.Region = c.Host := by
    rw [hr]; simp [reconcileHost]
  rw [hmain, hH]

/-- Witness for C5 (amended): on the filled Config obtained from
`Account = "a"`, `User = "u"`, `Password = "p"` (whose region is empty), a
second application of the defaulting pass returns it unchanged. -/
theorem C5_amended_witness :
    fillMissingConfigParameters { emptyConfig with Account := "a".data, User := "u".data, Password := "p".data, Protocol := "https".data, Port := 443, LoginTimeout := defaultLoginTimeout, Application := clientType, Authenticator := defaultAuthenticator } =
      .ok { emptyConfig with Account := "a".data, User := "u".data, Password := "p".data, Protocol := "https".data, Port := 443, LoginTimeout := defaultLoginTimeout, Application := clientType, Authenticator := defaultAuthenticator } :=
  (C5_amended { emptyConfig with Account := "a".data, User := "u".data, Password := "p".data }
    { emptyConfig with Account := "a".data, User := "u".data, Password := "p".data, Protocol := "https".data, Port := 443, LoginTimeout := defaultLoginTimeout, Application := clientType, Authenticator := defaultAuthenticator }
    (by decide)).2 (by decide)

/-- C6: during query-string decoding, pieces without `'='` are skipped
without error (dropping them from the piece list does not change the
result), and well-formed pairs in the same query string are still applied:
`"u:p@ac?foo&warehouse=wh"` parses successfully with `Warehouse = "wh"`. -/
theorem C6_skip_malformed_pairs :
    (∀ (st : Config × Proxy) (pieces : List Str),
        processParams st pieces =
          processParams st (pieces.filter (fun v => (splitFirstEq v).isSome))) ∧
    ParseDSN ("u:p@ac?foo&warehouse=wh".data) emptyProxy =
      .ok ({ emptyConfig with
        Account := "ac".data, User := "u".data, Password := "p".data,
        Warehouse := "wh".data, Protocol := "https".data,
        Host := "ac.snowflakecomputing.com".data, Port := 443,
        Authenticator := defaultAuthenticator, LoginTimeout := defaultLoginTimeout,
        Application := clientType }, emptyProxy) := by
  constructor
  · intro st pieces
    exact (processParams_filter pieces st).symm
  · decide

/-- C7: when the account/host segment of a DSN is `"ab.us-east-1"` (no port,
no recognized domain suffix), `parseAccountHostPort` splits the embedded
region at the first dot: region `"us-east-1"`, account `"ab"`, host
`"ab.us-east-1.snowflakecomputing.com"`, port 443; `ParseDSN` on the whole
DSN `"u:p@ab.us-east-1"` agrees. -/
theorem C7_embedded_region_split :
    parseAccountHostPort 3 16 ("u:p@ab.us-east-1".data) =
      .ok ("us-east-1".data, "ab".data,
        "ab.us-east-1.snowflakecomputing.com".data, 443) ∧
    ParseDSN ("u:p@ab.us-east-1".data) emptyProxy =
      .ok ({ emptyConfig with
        Account := "ab".data, User := "u".data, Password := "p".data,
        Region := "us-east-1".data, Protocol := "https".data,
        Host := "ab.us-east-1.snowflakecomputing.com".data, Port := 443,
        Authenticator := defaultAuthenticator, LoginTimeout := defaultLoginTimeout,
        Application := clientType }, emptyProxy) := by
  constructor <;> decide

/-- C8 counterexample: a pair with an unrecognized key is stored in `Params`
with its URL-decoded value, not with the verbatim substring after `'='`:
for the query string `"k=%41"` the stored value is `"A"`, which differs from
the raw substring `"%41"`. -/
theorem C8_counterexample :
    parseDSNParams (emptyConfig, emptyProxy) ("k=%41".data) =
      .ok ({ emptyConfig with Params := [("k".data, "A".data)] }, emptyProxy) ∧
    ("A".data : Str) ≠ "%41".data := by
  decide

/-- C8 (amended): every query pair whose key is unrecognized (and contains
no `'='`) and whose value URL-decodes successfully is stored in the `Params`
mapping under that key with the URL-decoded value — verbatim exactly when
the raw value contains no `'%'` or `'+'` (second conjunct) — and the pair is
never dropped, whatever pairs were processed before it (the insertion
overwrites an earlier value for the same key, as the Go map write does). -/
theorem C8_amended :
    (∀ (cfg : Config) (px : Proxy) (pieces : List Str) (cfg' : Config) (px' : Proxy)
        (k raw w : Str),
        k ∉ recognizedKeys → '=' ∉ k → queryUnescape raw = .ok w →
        processParams (cfg, px) pieces = .ok (cfg', px') →
        processParams (cfg, px) (pieces ++ [k ++ '=' :: raw]) =
          .ok ({ cfg' with Params := insertParam cfg'.Params k w }, px')) ∧
    (∀ raw : Str, '%' ∉ raw → '+' ∉ raw → queryUnescape raw = .ok raw) := by
  constructor
  · intro cfg px pieces cfg' px' k raw w hk he hu hpp
    rw [processParams_append, hpp]
    show processParams (cfg', px') [k ++ '=' :: raw] = _
    simp only [processParams, processOneParam, splitFirstEq_concat k raw he, hu,
      dispatch_default cfg' px' k w hk]
  · exact queryUnescape_plain

/-- Witness for C8 (amended): the unrecognized pair `"kk=%41"`, processed
after an empty list of pairs, is stored as `("kk", "A")`. -/
theorem C8_amended_witness :
    processParams (emptyConfig, emptyProxy) ([] ++ [("kk".data) ++ '=' :: "%41".data]) =
      .ok ({ emptyConfig with Params := insertParam emptyConfig.Params ("kk".data) ("A".data) }, emptyProxy) :=
  C8_amended.1 emptyConfig emptyProxy [] emptyConfig emptyProxy ("kk".data) ("%41".data)
    ("A".data) (by decide) (by decide) (by decide) (by decide)

/-- C9 (implicit): if after segment parsing the account is empty, the host
ends with `".snowflakecomputing.com"` and the first dot of the host is not
at position 0, `ParseDSN`'s derivation step takes the account from the host
prefix before the first dot; in particular
`"user:pass@ab.snowflakecomputing.com:443"` parses with account `"ab"`
instead of failing with `EmptyAccount`. -/
theorem C9_account_from_host :
    (∀ (cfg : Config) (d : Nat), cfg.Account = [] → hasSuffix cfg.Host sfxDot = true →
        subIndex ['.'] cfg.Host = some d → 0 < d →
        (deriveAccount cfg).Account = cfg.Host.take d) ∧
    ParseDSN ("user:pass@ab.snowflakecomputing.com:443".data) emptyProxy =
      .ok ({ emptyConfig with
        Account := "ab".data, User := "user".data, Password := "pass".data,
        Protocol := "https".data, Host := "ab.snowflakecomputing.com".data, Port := 443,
        Authenticator := defaultAuthenticator, LoginTimeout := defaultLoginTimeout,
        Application := clientType }, emptyProxy) := by
  constructor
  · intro cfg d h1 h2 h3 h4
    simp only [deriveAccount]
    rw [if_pos (And.intro h1 h2), h3]
    dsimp only
    rw [if_pos h4]
  · decide

/-- Witness for C9: on a Config whose only non-zero field is
`Host = "ab.snowflakecomputing.com"`, the derivation step produces the
prefix before the first dot. -/
theorem C9_account_from_host_witness :
    (deriveAccount { emptyConfig with Host := "ab.snowflakecomputing.com".data }).Account =
      ({ emptyConfig with Host := "ab.snowflakecomputing.com".data } : Config).Host.take 2 :=
  C9_account_from_host.1 { emptyConfig with Host := "ab.snowflakecomputing.com".data } 2
    rfl (by decide) (by decide) (by decide)

/-- C10 (implicit): a recognized typed key with an unconvertible value —
`passcodeInPassword` or `insecureMode` with a non-boolean, `loginTimeout` or
`proxyPort` with a non-integer — makes the query decoder return the
conversion error instead of skipping the pair, and `ParseDSN` propagates it
to the caller (final conjunct, on the DSN `"u:p@ac?loginTimeout=xx"`). -/
theorem C10_typed_conversion_errors :
    (∀ (st : Config × Proxy) (raw w : Str), '&' ∉ raw → queryUnescape raw = .ok w →
        goParseBool w = none →
        parseDSNParams st ("passcodeInPassword".data ++ '=' :: raw) =
          .error (.parseBoolError w)) ∧
    (∀ (st : Config × Proxy) (raw w : Str), '&' ∉ raw → queryUnescape raw = .ok w →
        goParseBool w = none →
        parseDSNParams st ("insecureMode".data ++ '=' :: raw) =
          .error (.parseBoolError w)) ∧
    (∀ (st : Config × Proxy) (raw w : Str), '&' ∉ raw → queryUnescape raw = .ok w →
        goParseInt w = none →
        parseDSNParams st ("loginTimeout".data ++ '=' :: raw) =
          .error (.parseIntError w)) ∧
    (∀ (st : Config × Proxy) (raw w : Str), '&' ∉ raw → queryUnescape raw = .ok w →
        goParseInt w = none →
        parseDSNParams st ("proxyPort".data ++ '=' :: raw) =
          .error (.parseIntError w)) ∧
    ParseDSN ("u:p@ac?loginTimeout=xx".data) emptyProxy =
      .error (.parseIntError ("xx".data)) := by
  refine ⟨?_, ?_, ?_, ?_, by decide⟩
  · intro st raw w hr hu hb
    rw [parseDSNParams_single st _ raw w (by decide) (by decide) hr hu,
      dispatch_pinp_err st.1 st.2 w hb]
  · intro st raw w hr hu hb
    rw [parseDSNParams_single st _ raw w (by decide) (by decide) hr hu,
      dispatch_insecure_err st.1 st.2 w hb]
  · intro st raw w hr hu hb
    rw [parseDSNParams_single st _ raw w (by decide) (by decide) hr hu,
      dispatch_login_err st.1 st.2 w hb]
  · intro st raw w hr hu hb
    rw [parseDSNParams_single st _ raw w (by decide) (by decide) hr hu,
      dispatch_proxyport_err st.1 st.2 w hb]

/-- Witness for C10: concrete unconvertible values for all four typed keys
abort the query decoding with the conversion error. -/
theorem C10_typed_conversion_errors_witness :
    parseDSNParams (emptyConfig, emptyProxy) ("passcodeInPassword".data ++ '=' :: "xx".data) =
      .error (.parseBoolError ("xx".data)) ∧
    parseDSNParams (emptyConfig, emptyProxy) ("insecureMode".data ++ '=' :: "yes".data) =
      .error (.parseBoolError ("yes".data)) ∧
    parseDSNParams (emptyConfig, emptyProxy) ("loginTimeout".data ++ '=' :: "9z".data) =
      .error (.parseIntError ("9z".data)) ∧
    parseDSNParams (emptyConfig, emptyProxy) ("proxyPort".data ++ '=' :: "p80".data) =
      .error (.parseIntError ("p80".data)) :=
  ⟨C10_typed_conversion_errors.1 (emptyConfig, emptyProxy) ("xx".data) ("xx".data)
      (by decide) (by decide) (by decide),
   C10_typed_conversion_errors.2.1 (emptyConfig, emptyProxy) ("yes".data) ("yes".data)
      (by decide) (by decide) (by decide),
   C10_typed_conversion_errors.2.2.1 (emptyConfig, emptyProxy) ("9z".data) ("9z".data)
      (by decide) (by decide) (by decide),
   C10_typed_conversion_errors.2.2.2.1 (emptyConfig, emptyProxy) ("p80".data) ("p80".data)
      (by decide) (by decide) (by decide)⟩

/-! ## Position and scan lemmas for the round-trip proof -/

theorem chAt_lt (x y : Str) (k : Nat) (h : k < x.length) : chAt (x ++ y) k = chAt x k := by
  unfold chAt
  exact List.getD_append x y nulChar k h

theorem chAt_ge (x y : Str) (k : Nat) (h : x.length ≤ k) :
    chAt (x ++ y) k = chAt y (k - x.length) := by
  unfold chAt
  exact List.getD_append_right x y nulChar k h

theorem chAt_at (x y : Str) (c : Char) : chAt (x ++ c :: y) x.length = c := by
  rw [chAt_ge x (c :: y) x.length le_rfl, Nat.sub_self]
  rfl

theorem chAt_gt (x y : Str) (c : Char) (k : Nat) (h : x.length < k) :
    chAt (x ++ c :: y) k = chAt y (k - x.length - 1) := by
  rw [chAt_ge x (c :: y) k (le_of_lt h)]
  obtain ⟨m, hm⟩ : ∃ m, k - x.length = m + 1 := ⟨k - x.length - 1, by omega⟩
  rw [hm]
  simp [chAt]

theorem chAt_ne_of_not_mem (s : Str) (c : Char) (h : c ∉ s) (hnul : ¬ c = nulChar) :
    ∀ k, ¬ chAt s k = c := by
  intro k hEq
  by_cases hk : k < s.length
  · refine h ?_
    rw [← hEq]
    unfold chAt
    rw [List.getD_eq_getElem s nulChar hk]
    exact List.getElem_mem hk
  · rw [chAt, List.getD_eq_default s nulChar (le_of_not_lt hk)] at hEq
    exact hnul hEq.symm

theorem clean_not_mem (s : Str) (h : cleanStr s = true) (c : Char)
    (hc : c.isAlphanum = false) : c ∉ s := by
  intro hm
  have ht := List.all_eq_true.mp h c hm
  rw [hc] at ht
  exact absurd ht (by decide)

theorem chAt_single (x y : Str) (c : Char) (hx : c ∉ x) (hy : c ∉ y) (hnul : ¬ c = nulChar) :
    ∀ k, ¬ k = x.length → ¬ chAt (x ++ c :: y) k = c := by
  intro k hk hEq
  rcases lt_trichotomy k x.length with h | h | h
  · rw [chAt_lt x (c :: y) k h] at hEq
    exact chAt_ne_of_not_mem x c hx hnul k hEq
  · exact hk h
  · rw [chAt_gt x y c k h] at hEq
    exact chAt_ne_of_not_mem y c hy hnul _ hEq

theorem findFromA_none (d : Str) (c : Char) : ∀ (fuel lo : Nat),
    (∀ k, lo ≤ k → k < lo + fuel → ¬ chAt d k = c) → findFromA d c fuel lo = none := by
  intro fuel
  induction fuel with
  | zero => intro lo _; rfl
  | succ n ih =>
      intro lo h
      rw [findFromA, if_neg (h lo le_rfl (by omega))]
      exact ih (lo+1) (fun k h1 h2 => h k (by omega) (by omega))

theorem findFrom_none (d : Str) (c : Char) (lo hi : Nat)
    (h : ∀ k, lo ≤ k → k < hi → ¬ chAt d k = c) : findFrom d c lo hi = none :=
  findFromA_none d c (hi - lo) lo (fun k h1 h2 => h k h1 (by omega))

theorem findFromA_some (d : Str) (c : Char) (m : Nat) (hm : chAt d m = c) : ∀ (fuel lo : Nat),
    lo ≤ m → m < lo + fuel → (∀ k, lo ≤ k → k < m → ¬ chAt d k = c) →
    findFromA d c fuel lo = some m := by
  intro fuel
  induction fuel with
  | zero => intro lo h1 h2 _; exact absurd h2 (by omega)
  | succ n ih =>
      intro lo h1 h2 h3
      by_cases hl : lo = m
      · rw [findFromA, hl, if_pos hm]
      · rw [findFromA, if_neg (h3 lo le_rfl (by omega))]
        exact ih (lo+1) (by omega) (by omega) (fun k hk1 hk2 => h3 k (by omega) hk2)

theorem findFrom_some (d : Str) (c : Char) (lo hi m : Nat) (hm : chAt d m = c)
    (h1 : lo ≤ m) (h2 : m < hi) (h3 : ∀ k, lo ≤ k → k < m → ¬ chAt d k = c) :
    findFrom d c lo hi = some m :=
  findFromA_some d c m hm (hi - lo) lo h1 (by omega) h3

theorem take_pre (x y : Str) : (x ++ y).take x.length = x := List.take_left x y

theorem drop_at (x y : Str) : (x ++ y).drop x.length = y := List.drop_left x y

theorem slice_append (x y z : Str) :
    slice (x ++ y ++ z) x.length (x.length + y.length) = y := by
  unfold slice
  rw [show x.length + y.length = (x ++ y).length by simp, List.take_left, drop_at]

theorem subIndex_singleton_none (c : Char) (s : Str) (h : c ∉ s) : subIndex [c] s = none := by
  induction s with
  | nil =>
      rw [subIndex, if_neg (by simp)]
  | cons x t ih =>
      rw [List.mem_cons, not_or] at h
      rw [subIndex, if_neg (by simp [strStartsWith]; exact fun he => h.1 he), ih h.2]
      rfl

theorem subIndex_singleton_at (c : Char) (x t : Str) (h : c ∉ x) :
    subIndex [c] (x ++ c :: t) = some x.length := by
  induction x with
  | nil =>
      rw [List.nil_append, subIndex, if_pos (by simp [strStartsWith])]
      rfl
  | cons z zs ih =>
      rw [List.mem_cons, not_or] at h
      rw [List.cons_append, subIndex,
        if_neg (by simp [strStartsWith]; exact fun he => h.1 he), ih h.2]
      rfl

theorem hasSuffix_append (x s : Str) : hasSuffix (x ++ s) s = true := by
  unfold hasSuffix
  rw [show (x ++ s).length - s.length = x.length by simp, drop_at]
  simp

theorem loop1_no_slash (px : Proxy) (d : Str) (hs : ∀ k, ¬ chAt d k = '/') :
    ∀ (i posQ : Nat), loop1 px d i posQ = noSlashBranch px d (qScan d i posQ) := by
  intro i
  induction i with
  | zero => intro posQ; rfl
  | succ n ih =>
      intro posQ
      rw [loop1, if_neg (hs n), qScan]
      exact ih _

theorem qScan_no_q (d : Str) : ∀ (i posQ : Nat),
    (∀ k, k < i → ¬ chAt d k = '?') → qScan d i posQ = posQ := by
  intro i
  induction i with
  | zero => intro posQ _; rfl
  | succ n ih =>
      intro posQ h
      rw [qScan, if_neg (h n (by omega))]
      exact ih _ (fun k hk => h k (by omega))

theorem loop2_to_at (d : Str) (A : Nat) (hA : chAt d A = '@') : ∀ (i : Nat), ∀ (posQ : Nat),
    A < i →
    (∀ k, A < k → k < i → ¬ chAt d k = '@') →
    (∀ k, A < k → k < i → ¬ chAt d k = '?') →
    loop2 d i posQ =
      ((A : Int), posQ, (parseUserPassword A d).1, (parseUserPassword A d).2) := by
  intro i
  induction i with
  | zero => intro posQ h _ _; exact absurd h (by omega)
  | succ n ih =>
      intro posQ h hno hq
      by_cases hn : n = A
      · subst hn
        rw [loop2, if_pos hA]
      · have hgt : A < n := by omega
        rw [loop2, if_neg (hno n hgt (by omega)), if_neg (hq n hgt (by omega))]
        exact ih _ hgt (fun k h1 h2 => hno k h1 (by omega)) (fun k h1 h2 => hq k h1 (by omega))

theorem loop2_to_at_q (d : Str) (A Qp : Nat) (hA : chAt d A = '@') (hQ : chAt d Qp = '?')
    (hAQ : A < Qp)
    (hno : ∀ k, A < k → ¬ chAt d k = '@')
    (hq : ∀ k, A < k → ¬ k = Qp → ¬ chAt d k = '?') : ∀ (i : Nat), ∀ (posQ : Nat),
    Qp < i →
    loop2 d i posQ =
      ((A : Int), Qp, (parseUserPassword A d).1, (parseUserPassword A d).2) := by
  intro i
  induction i with
  | zero => intro posQ h; exact absurd h (by omega)
  | succ n ih =>
      intro posQ h
      by_cases hn : n = Qp
      · subst hn
        rw [loop2, if_neg (hno n hAQ), if_pos hQ]
        exact loop2_to_at d A hA n n hAQ (fun k h1 h2 => hno k h1)
          (fun k h1 h2 => hq k h1 (by omega))
      · have hgt : Qp < n := by omega
        rw [loop2, if_neg (hno n (by omega)), if_neg (hq n (by omega) hn)]
        exact ih _ hgt

theorem not_mem_append (c : Char) (x y : Str) (hx : c ∉ x) (hy : c ∉ y) : c ∉ x ++ y := by
  intro hm
  rcases List.mem_append.mp hm with h | h
  exacts [hx h, hy h]

theorem not_mem_cons (c b : Char) (y : Str) (hb : ¬ c = b) (hy : c ∉ y) : c ∉ b :: y := by
  intro hm
  rcases List.mem_cons.mp hm with h | h
  exacts [hb h, hy h]

theorem pup_clean (u p T : Str) (hu : ':' ∉ u) :
    parseUserPassword (u ++ ':' :: p).length (u ++ ':' :: p ++ '@' :: T) = (u, p) := by
  have hA : (u ++ ':' :: p).length = u.length + 1 + p.length := by simp; omega
  have hd1 : u ++ ':' :: p ++ '@' :: T = u ++ ':' :: (p ++ '@' :: T) := by simp
  have hfind : findFrom (u ++ ':' :: p ++ '@' :: T) ':' 0 (u ++ ':' :: p).length =
      some u.length := by
    apply findFrom_some
    · rw [hd1]; exact chAt_at u (p ++ '@' :: T) ':'
    · omega
    · omega
    · intro k _ hk
      rw [hd1, chAt_lt u (':' :: (p ++ '@' :: T)) k hk]
      exact chAt_ne_of_not_mem u ':' hu (by decide) k
  rw [parseUserPassword, hfind]
  have htake : (u ++ ':' :: p ++ '@' :: T).take u.length = u := by
    rw [hd1]; exact take_pre u (':' :: (p ++ '@' :: T))
  have hslice : slice (u ++ ':' :: p ++ '@' :: T) (u.length + 1) (u ++ ':' :: p).length = p := by
    have hd2 : u ++ ':' :: p ++ '@' :: T = (u ++ [':']) ++ p ++ ('@' :: T) := by simp
    have hl1 : u.length + 1 = (u ++ [':']).length := by simp
    have hl2 : (u ++ ':' :: p).length = (u ++ [':']).length + p.length := by simp; omega
    rw [hd2, hl1, hl2]
    exact slice_append (u ++ [':']) p ('@' :: T)
  dsimp only
  rw [htake, hslice]

theorem pahp_clean (x1 a tl : Str) (ha : cleanStr a = true) :
    parseAccountHostPort ((x1.length : Int)) (x1.length + 1 + (a ++ sfxDot).length + 4)
      (x1 ++ '@' :: a ++ sfxDot ++ ':' :: '4' :: '4' :: '3' :: tl) =
    .ok ([], [], a ++ sfxDot, 443) := by
  have hstart : ((x1.length : Int) + 1).toNat = x1.length + 1 := by omega
  have hd1 : x1 ++ '@' :: a ++ sfxDot ++ ':' :: '4' :: '4' :: '3' :: tl =
      x1 ++ '@' :: ((a ++ sfxDot) ++ (':' :: '4' :: '4' :: '3' :: tl)) := by simp
  have hd2 : x1 ++ '@' :: a ++ sfxDot ++ ':' :: '4' :: '4' :: '3' :: tl =
      (x1 ++ '@' :: (a ++ sfxDot)) ++ ':' :: ('4' :: '4' :: '3' :: tl) := by simp
  have hX2 : (x1 ++ '@' :: (a ++ sfxDot)).length = x1.length + 1 + (a ++ sfxDot).length := by
    simp; omega
  have hfind : findFrom (x1 ++ '@' :: a ++ sfxDot ++ ':' :: '4' :: '4' :: '3' :: tl) ':'
      (x1.length + 1) (x1.length + 1 + (a ++ sfxDot).length + 4) =
      some (x1.length + 1 + (a ++ sfxDot).length) := by
    apply findFrom_some
    · rw [hd2, ← hX2]
      exact chAt_at _ _ ':'
    · omega
    · omega
    · intro k hk1 hk2 hEq
      rw [hd1, chAt_gt x1 _ '@' k (by omega)] at hEq
      rw [chAt_lt (a ++ sfxDot) _ _ (by omega)] at hEq
      have hcol : ':' ∉ a ++ sfxDot :=
        not_mem_append ':' a sfxDot (clean_not_mem a ha ':' (by decide)) (by decide)
      exact chAt_ne_of_not_mem (a ++ sfxDot) ':' hcol (by decide) _ hEq
  simp only [parseAccountHostPort, hstart, hfind]
  have hslice443 : slice (x1 ++ '@' :: a ++ sfxDot ++ ':' :: '4' :: '4' :: '3' :: tl)
      (x1.length + 1 + (a ++ sfxDot).length + 1) (x1.length + 1 + (a ++ sfxDot).length + 4) =
      '4' :: '4' :: '3' :: [] := by
    have hd3 : x1 ++ '@' :: a ++ sfxDot ++ ':' :: '4' :: '4' :: '3' :: tl =
        ((x1 ++ '@' :: (a ++ sfxDot)) ++ [':']) ++ ('4' :: '4' :: '3' :: []) ++ tl := by simp
    rw [hd3,
      show x1.length + 1 + (a ++ sfxDot).length + 1 =
        ((x1 ++ '@' :: (a ++ sfxDot)) ++ [':']).length by simp; omega,
      show x1.length + 1 + (a ++ sfxDot).length + 4 =
        ((x1 ++ '@' :: (a ++ sfxDot)) ++ [':']).length +
          (('4' :: '4' :: '3' :: [] : Str)).length by simp; omega]
    exact slice_append ((x1 ++ '@' :: (a ++ sfxDot)) ++ [':']) ('4' :: '4' :: '3' :: []) tl
  rw [hslice443, show goAtoi ('4' :: '4' :: '3' :: []) = some 443 from by decide]
  dsimp only
  have hsliceHost : slice (x1 ++ '@' :: a ++ sfxDot ++ ':' :: '4' :: '4' :: '3' :: tl)
      (x1.length + 1) (x1.length + 1 + (a ++ sfxDot).length) = a ++ sfxDot := by
    have hd4 : x1 ++ '@' :: a ++ sfxDot ++ ':' :: '4' :: '4' :: '3' :: tl =
        (x1 ++ ['@']) ++ (a ++ sfxDot) ++ (':' :: '4' :: '4' :: '3' :: tl) := by simp
    rw [hd4, show x1.length + 1 = (x1 ++ ['@']).length by simp]
    exact slice_append (x1 ++ ['@']) (a ++ sfxDot) (':' :: '4' :: '4' :: '3' :: tl)
  simp only [parseAccountHostPortTail, hsliceHost]
  rw [if_neg (fun hc => absurd hc.1 (by decide))]

theorem noSlash_clean_q (px : Proxy) (u p a qs : Str)
    (hu : cleanStr u = true) (hp : cleanStr p = true) (ha : cleanStr a = true)
    (hqAt : '@' ∉ qs) (hqQ : '?' ∉ qs) : ∀ posQ0 : Nat,
    noSlashBranch px (cleanDsn u p a ('?' :: qs)) posQ0 =
      parseDSNParams (baseCfg u p a, px) qs := by
  intro posQ0
  have hd1 : cleanDsn u p a ('?' :: qs) =
      (u ++ ':' :: p) ++ '@' :: ((a ++ sfxDot) ++ ':' :: '4' :: '4' :: '3' :: '?' :: qs) := by
    simp [cleanDsn]
  have hd5 : cleanDsn u p a ('?' :: qs) =
      ((u ++ ':' :: p) ++ '@' :: (a ++ sfxDot) ++ ':' :: '4' :: '4' :: '3' :: []) ++
        '?' :: qs := by
    simp [cleanDsn]
  have hX4 : ((u ++ ':' :: p) ++ '@' :: (a ++ sfxDot) ++ ':' :: '4' :: '4' :: '3' :: []).length =
      (u ++ ':' :: p).length + 1 + (a ++ sfxDot).length + 4 := by
    simp; omega
  have hlen : (cleanDsn u p a ('?' :: qs)).length =
      (u ++ ':' :: p).length + 1 + (a ++ sfxDot).length + 4 + 1 + qs.length := by
    simp [cleanDsn]; omega
  have hTat : '@' ∉ ((a ++ sfxDot) ++ ':' :: '4' :: '4' :: '3' :: '?' :: qs) := by
    refine not_mem_append '@' _ _
      (not_mem_append '@' a sfxDot (clean_not_mem a ha '@' (by decide)) (by decide)) ?_
    exact not_mem_cons _ _ _ (by decide) (not_mem_cons _ _ _ (by decide)
      (not_mem_cons _ _ _ (by decide) (not_mem_cons _ _ _ (by decide)
        (not_mem_cons _ _ _ (by decide) hqAt))))
  have hT1q : '?' ∉ ((a ++ sfxDot) ++ ':' :: '4' :: '4' :: '3' :: []) := by
    refine not_mem_append '?' _ _
      (not_mem_append '?' a sfxDot (clean_not_mem a ha '?' (by decide)) (by decide)) ?_
    exact not_mem_cons _ _ _ (by decide) (not_mem_cons _ _ _ (by decide)
      (not_mem_cons _ _ _ (by decide) (not_mem_cons _ _ _ (by decide) (by simp))))
  have hAat : chAt (cleanDsn u p a ('?' :: qs)) (u ++ ':' :: p).length = '@' := by
    rw [hd1]
    exact chAt_at _ _ '@'
  have hQat : chAt (cleanDsn u p a ('?' :: qs))
      ((u ++ ':' :: p).length + 1 + (a ++ sfxDot).length + 4) = '?' := by
    rw [hd5, ← hX4]
    exact chAt_at _ _ '?'
  have hno : ∀ k, (u ++ ':' :: p).length < k →
      ¬ chAt (cleanDsn u p a ('?' :: qs)) k = '@' := by
    intro k hk hEq
    rw [hd1, chAt_gt _ _ '@' k hk] at hEq
    exact chAt_ne_of_not_mem _ '@' hTat (by decide) _ hEq
  have hq : ∀ k, (u ++ ':' :: p).length < k →
      ¬ k = (u ++ ':' :: p).length + 1 + (a ++ sfxDot).length + 4 →
      ¬ chAt (cleanDsn u p a ('?' :: qs)) k = '?' := by
    intro k hk hkQ hEq
    rw [hd1, chAt_gt _ _ '@' k hk] at hEq
    have hTform : (a ++ sfxDot) ++ ':' :: '4' :: '4' :: '3' :: '?' :: qs =
        ((a ++ sfxDot) ++ ':' :: '4' :: '4' :: '3' :: []) ++ '?' :: qs := by simp
    rw [hTform] at hEq
    have hT1len : ((a ++ sfxDot) ++ ':' :: '4' :: '4' :: '3' :: []).length =
        (a ++ sfxDot).length + 4 := by simp; omega
    refine chAt_single _ qs '?' hT1q hqQ (by decide) _ ?_ hEq
    rw [hT1len]
    omega
  have hloop2 := loop2_to_at_q (cleanDsn u p a ('?' :: qs)) (u ++ ':' :: p).length
    ((u ++ ':' :: p).length + 1 + (a ++ sfxDot).length + 4) hAat hQat (by omega) hno hq
    (cleanDsn u p a ('?' :: qs)).length posQ0 (by omega)
  simp only [noSlashBranch, hloop2]
  have hpup : parseUserPassword (u ++ ':' :: p).length (cleanDsn u p a ('?' :: qs)) = (u, p) := by
    rw [show cleanDsn u p a ('?' :: qs) =
        u ++ ':' :: p ++ '@' :: ((a ++ sfxDot) ++ ':' :: '4' :: '4' :: '3' :: '?' :: qs) from
      by simp [cleanDsn]]
    exact pup_clean u p _ (clean_not_mem u hu ':' (by decide))
  have hpahp : parseAccountHostPort (((u ++ ':' :: p).length : Int))
      ((u ++ ':' :: p).length + 1 + (a ++ sfxDot).length + 4) (cleanDsn u p a ('?' :: qs)) =
      .ok ([], [], a ++ sfxDot, 443) := by
    rw [show cleanDsn u p a ('?' :: qs) =
        (u ++ ':' :: p) ++ '@' :: a ++ sfxDot ++ ':' :: '4' :: '4' :: '3' :: ('?' :: qs) from
      by simp [cleanDsn]]
    exact pahp_clean (u ++ ':' :: p) a ('?' :: qs) ha
  rw [hpup, hpahp]
  dsimp only
  have htoNat : (((((u ++ ':' :: p).length + 1 + (a ++ sfxDot).length + 4 : Nat) : Int)) - 1 + 1).toNat =
      (u ++ ':' :: p).length + 1 + (a ++ sfxDot).length + 4 := by omega
  simp only [parseParams, htoNat]
  have hfindQ : findFrom (cleanDsn u p a ('?' :: qs)) '?'
      ((u ++ ':' :: p).length + 1 + (a ++ sfxDot).length + 4)
      (cleanDsn u p a ('?' :: qs)).length =
      some ((u ++ ':' :: p).length + 1 + (a ++ sfxDot).length + 4) := by
    apply findFrom_some _ _ _ _ _ hQat le_rfl (by omega)
    intro k hk1 hk2
    exact absurd (by omega : (1:Nat) = 0) (by decide)
  rw [hfindQ]
  dsimp only
  have hdrop : (cleanDsn u p a ('?' :: qs)).drop
      ((u ++ ':' :: p).length + 1 + (a ++ sfxDot).length + 4 + 1) = qs := by
    rw [show cleanDsn u p a ('?' :: qs) =
        (((u ++ ':' :: p) ++ '@' :: (a ++ sfxDot) ++ ':' :: '4' :: '4' :: '3' :: []) ++ ['?']) ++
          qs from by simp [cleanDsn],
      show (u ++ ':' :: p).length + 1 + (a ++ sfxDot).length + 4 + 1 =
        (((u ++ ':' :: p) ++ '@' :: (a ++ sfxDot) ++ ':' :: '4' :: '4' :: '3' :: []) ++
          ['?']).length from by simp; omega]
    exact drop_at _ qs
  rw [hdrop]
  rfl

theorem noSlash_clean_nq (px : Proxy) (u p a : Str)
    (hu : cleanStr u = true) (hp : cleanStr p = true) (ha : cleanStr a = true) :
    noSlashBranch px (cleanDsn u p a []) (cleanDsn u p a []).length =
      .ok (baseCfg u p a, px) := by
  have hd1 : cleanDsn u p a [] =
      (u ++ ':' :: p) ++ '@' :: ((a ++ sfxDot) ++ ':' :: '4' :: '4' :: '3' :: []) := by
    simp [cleanDsn]
  have hlen : (cleanDsn u p a []).length =
      (u ++ ':' :: p).length + 1 + (a ++ sfxDot).length + 4 := by
    simp [cleanDsn]; omega
  have hTat : '@' ∉ ((a ++ sfxDot) ++ ':' :: '4' :: '4' :: '3' :: []) := by
    refine not_mem_append '@' _ _
      (not_mem_append '@' a sfxDot (clean_not_mem a ha '@' (by decide)) (by decide)) ?_
    exact not_mem_cons _ _ _ (by decide) (not_mem_cons _ _ _ (by decide)
      (not_mem_cons _ _ _ (by decide) (not_mem_cons _ _ _ (by decide) (by simp))))
  have hTq : '?' ∉ ((a ++ sfxDot) ++ ':' :: '4' :: '4' :: '3' :: []) := by
    refine not_mem_append '?' _ _
      (not_mem_append '?' a sfxDot (clean_not_mem a ha '?' (by decide)) (by decide)) ?_
    exact not_mem_cons _ _ _ (by decide) (not_mem_cons _ _ _ (by decide)
      (not_mem_cons _ _ _ (by decide) (not_mem_cons _ _ _ (by decide) (by simp))))
  have hAat : chAt (cleanDsn u p a []) (u ++ ':' :: p).length = '@' := by
    rw [hd1]
    exact chAt_at _ _ '@'
  have hno : ∀ k, (u ++ ':' :: p).length < k → ¬ chAt (cleanDsn u p a []) k = '@' := by
    intro k hk hEq
    rw [hd1, chAt_gt _ _ '@' k hk] at hEq
    exact chAt_ne_of_not_mem _ '@' hTat (by decide) _ hEq
  have hq : ∀ k, (u ++ ':' :: p).length < k → ¬ chAt (cleanDsn u p a []) k = '?' := by
    intro k hk hEq
    rw [hd1, chAt_gt _ _ '@' k hk] at hEq
    exact chAt_ne_of_not_mem _ '?' hTq (by decide) _ hEq
  have hloop2 := loop2_to_at (cleanDsn u p a []) (u ++ ':' :: p).length hAat
    (cleanDsn u p a []).length (cleanDsn u p a []).length (by omega)
    (fun k h1 h2 => hno k h1) (fun k h1 h2 => hq k h1)
  simp only [noSlashBranch, hloop2]
  have hpup : parseUserPassword (u ++ ':' :: p).length (cleanDsn u p a []) = (u, p) := by
    rw [show cleanDsn u p a [] =
        u ++ ':' :: p ++ '@' :: ((a ++ sfxDot) ++ ':' :: '4' :: '4' :: '3' :: []) from
      by simp [cleanDsn]]
    exact pup_clean u p _ (clean_not_mem u hu ':' (by decide))
  have hpahp : parseAccountHostPort (((u ++ ':' :: p).length : Int))
      (cleanDsn u p a []).length (cleanDsn u p a []) =
      .ok ([], [], a ++ sfxDot, 443) := by
    rw [hlen]
    rw [show cleanDsn u p a [] =
        (u ++ ':' :: p) ++ '@' :: a ++ sfxDot ++ ':' :: '4' :: '4' :: '3' :: ([] : Str) from
      by simp [cleanDsn]]
    exact pahp_clean (u ++ ':' :: p) a [] ha
  rw [hpup, hpahp]
  dsimp only
  have htoNat : ((((cleanDsn u p a []).length : Int)) - 1 + 1).toNat =
      (cleanDsn u p a []).length := by omega
  simp only [parseParams, htoNat]
  have hfindQ : findFrom (cleanDsn u p a []) '?' (cleanDsn u p a []).length
      (cleanDsn u p a []).length = none :=
    findFrom_none _ _ _ _ (fun k h1 h2 => absurd (lt_of_le_of_lt h1 h2) (lt_irrefl _))
  rw [hfindQ]
  rfl

theorem slash_not_mem_cleanDsn (u p a rest : Str)
    (hu : cleanStr u = true) (hp : cleanStr p = true) (ha : cleanStr a = true)
    (hr : '/' ∉ rest) : '/' ∉ cleanDsn u p a rest := by
  rw [show cleanDsn u p a rest =
      u ++ ':' :: (p ++ '@' :: (a ++ (sfxDot ++ ':' :: '4' :: '4' :: '3' :: rest))) from
    by simp [cleanDsn]]
  refine not_mem_append _ _ _ (clean_not_mem u hu '/' (by decide)) ?_
  refine not_mem_cons _ _ _ (by decide) ?_
  refine not_mem_append _ _ _ (clean_not_mem p hp '/' (by decide)) ?_
  refine not_mem_cons _ _ _ (by decide) ?_
  refine not_mem_append _ _ _ (clean_not_mem a ha '/' (by decide)) ?_
  refine not_mem_append _ _ _ (by decide) ?_
  exact not_mem_cons _ _ _ (by decide) (not_mem_cons _ _ _ (by decide)
    (not_mem_cons _ _ _ (by decide) (not_mem_cons _ _ _ (by decide) hr)))

theorem parse_clean_q (px : Proxy) (u p a qs : Str)
    (hu : cleanStr u = true) (hp : cleanStr p = true) (ha : cleanStr a = true)
    (hqSl : '/' ∉ qs) (hqAt : '@' ∉ qs) (hqQ : '?' ∉ qs) :
    ParseDSN (cleanDsn u p a ('?' :: qs)) px =
      (match parseDSNParams (baseCfg u p a, px) qs with
       | .error e => .error e
       | .ok st => postPhase st) := by
  have hsl : '/' ∉ cleanDsn u p a ('?' :: qs) :=
    slash_not_mem_cleanDsn u p a ('?' :: qs) hu hp ha
      (not_mem_cons _ _ _ (by decide) hqSl)
  simp only [ParseDSN]
  rw [loop1_no_slash px _ (chAt_ne_of_not_mem _ '/' hsl (by decide)),
    noSlash_clean_q px u p a qs hu hp ha hqAt hqQ]

theorem parse_clean_nq (px : Proxy) (u p a : Str)
    (hu : cleanStr u = true) (hp : cleanStr p = true) (ha : cleanStr a = true) :
    ParseDSN (cleanDsn u p a []) px = postPhase (baseCfg u p a, px) := by
  have hsl : '/' ∉ cleanDsn u p a [] :=
    slash_not_mem_cleanDsn u p a [] hu hp ha (by simp)
  have hq : '?' ∉ cleanDsn u p a [] := by
    rw [show cleanDsn u p a [] =
        u ++ ':' :: (p ++ '@' :: (a ++ (sfxDot ++ ':' :: '4' :: '4' :: '3' :: ([] : Str)))) from
      by simp [cleanDsn]]
    refine not_mem_append _ _ _ (clean_not_mem u hu '?' (by decide)) ?_
    refine not_mem_cons _ _ _ (by decide) ?_
    refine not_mem_append _ _ _ (clean_not_mem p hp '?' (by decide)) ?_
    refine not_mem_cons _ _ _ (by decide) ?_
    refine not_mem_append _ _ _ (clean_not_mem a ha '?' (by decide)) ?_
    refine not_mem_append _ _ _ (by decide) ?_
    exact not_mem_cons _ _ _ (by decide) (not_mem_cons _ _ _ (by decide)
      (not_mem_cons _ _ _ (by decide) (not_mem_cons _ _ _ (by decide) (by simp))))
  simp only [ParseDSN]
  rw [loop1_no_slash px _ (chAt_ne_of_not_mem _ '/' hsl (by decide)),
    qScan_no_q _ _ _ (fun k _ => chAt_ne_of_not_mem _ '?' hq (by decide) k),
    noSlash_clean_nq px u p a hu hp ha]

theorem dispatch_database (cfg : Config) (px : Proxy) (v : Str) :
    dispatchParam cfg px ("database".data) v = .ok ({cfg with Database := v}, px) := by
  simp only [dispatchParam]
  rw [if_neg (by decide), if_neg (by decide), if_pos trivial]

theorem dispatch_schema (cfg : Config) (px : Proxy) (v : Str) :
    dispatchParam cfg px ("schema".data) v = .ok ({cfg with Schema := v}, px) := by
  simp only [dispatchParam]
  rw [if_neg (by decide), if_neg (by decide), if_neg (by decide), if_pos trivial]

theorem dispatch_warehouse (cfg : Config) (px : Proxy) (v : Str) :
    dispatchParam cfg px ("warehouse".data) v = .ok ({cfg with Warehouse := v}, px) := by
  simp only [dispatchParam]
  rw [if_neg (by decide), if_pos trivial]

theorem dispatch_role (cfg : Config) (px : Proxy) (v : Str) :
    dispatchParam cfg px ("role".data) v = .ok ({cfg with Role := v}, px) := by
  simp only [dispatchParam]
  rw [if_neg (by decide), if_neg (by decide), if_neg (by decide), if_neg (by decide),
    if_pos trivial]

/-- A recognized session pair dispatches to `applySession`. -/
theorem dispatch_session (cfg : Config) (px : Proxy) (k v : Str)
    (hk : k = "database".data ∨ k = "schema".data ∨ k = "warehouse".data ∨ k = "role".data) :
    dispatchParam cfg px k v = .ok (applySession cfg k v, px) := by
  rcases hk with h | h | h | h <;> subst h
  · rw [dispatch_database, applySession, if_pos rfl]
  · rw [dispatch_schema]
    rw [applySession, if_neg (by decide), if_pos rfl]
  · rw [dispatch_warehouse]
    rw [applySession, if_neg (by decide), if_neg (by decide), if_pos rfl]
  · rw [dispatch_role]
    rw [applySession, if_neg (by decide), if_neg (by decide), if_neg (by decide), if_pos rfl]

theorem processParams_session (plist : List (Str × Str)) : ∀ (cfg : Config) (px : Proxy),
    (∀ pr ∈ plist,
        (pr.1 = "database".data ∨ pr.1 = "schema".data ∨ pr.1 = "warehouse".data ∨
          pr.1 = "role".data) ∧ '%' ∉ pr.2 ∧ '+' ∉ pr.2) →
    processParams (cfg, px) (plist.map renderPair) = .ok (applyQ cfg plist, px) := by
  induction plist with
  | nil => intro cfg px _; rfl
  | cons pr rest ih =>
      intro cfg px h
      obtain ⟨hk, hv1, hv2⟩ := h pr (List.mem_cons_self pr rest)
      have hkeq : '=' ∉ pr.1 := by
        rcases hk with hx | hx | hx | hx <;> rw [hx] <;> decide
      rw [List.map_cons, processParams, processOneParam, renderPair,
        splitFirstEq_concat pr.1 pr.2 hkeq]
      dsimp only
      rw [queryUnescape_plain pr.2 hv1 hv2]
      dsimp only
      rw [dispatch_session cfg px pr.1 pr.2 hk]
      dsimp only
      rw [applyQ]
      exact ih _ _ (fun q hq => h q (List.mem_cons_of_mem pr hq))

theorem splitOn_joinAmp (pieces : List Str) (hne : pieces ≠ [])
    (h : ∀ piece ∈ pieces, '&' ∉ piece) :
    splitOnChar '&' (joinAmp pieces) = pieces := by
  induction pieces with
  | nil => exact absurd rfl hne
  | cons x rest ih =>
      cases rest with
      | nil =>
          rw [joinAmp]
          exact splitOnChar_no_sep '&' x (h x (List.mem_cons_self x []))
      | cons y t =>
          rw [joinAmp, splitOnChar_sep_append '&' x _ (h x (List.mem_cons_self x _)),
            ih (by simp) (fun piece hp => h piece (List.mem_cons_of_mem x hp))]

theorem mem_joinAmp (c : Char) (pieces : List Str) (hm : c ∈ joinAmp pieces) :
    c = '&' ∨ ∃ piece ∈ pieces, c ∈ piece := by
  induction pieces with
  | nil => cases hm
  | cons x rest ih =>
      cases rest with
      | nil =>
          rw [joinAmp] at hm
          exact Or.inr ⟨x, List.mem_cons_self x [], hm⟩
      | cons y t =>
          rw [joinAmp] at hm
          rcases List.mem_append.mp hm with h | h
          · exact Or.inr ⟨x, List.mem_cons_self x _, h⟩
          · rcases List.mem_cons.mp h with h | h
            · exact Or.inl h
            · rcases ih h with h | ⟨piece, hp, hc⟩
              · exact Or.inl h
              · exact Or.inr ⟨piece, List.mem_cons_of_mem x hp, hc⟩

theorem queryEscape_clean (s : Str) (h : cleanStr s = true) : queryEscape s = s := by
  induction s with
  | nil => rfl
  | cons c rest ih =>
      have hc : c.isAlphanum = true := List.all_eq_true.mp h c (List.mem_cons_self c rest)
      have hrest : cleanStr rest = true := by
        rw [cleanStr, List.all_eq_true]
        intro x hx
        exact List.all_eq_true.mp h x (List.mem_cons_of_mem c hx)
      rw [queryEscape, queryEscapeChar, if_pos (by rw [isSafeByte, hc]; rfl), ih hrest]
      rfl

theorem parseDSNParams_session (st : Config × Proxy) (plist : List (Str × Str))
    (hne : plist ≠ [])
    (h : ∀ pr ∈ plist,
        (pr.1 = "database".data ∨ pr.1 = "schema".data ∨ pr.1 = "warehouse".data ∨
          pr.1 = "role".data) ∧ cleanStr pr.2 = true) :
    parseDSNParams st (joinAmp (plist.map renderPair)) =
      .ok (applyQ st.1 plist, st.2) := by
  have hamp : ∀ piece ∈ plist.map renderPair, '&' ∉ piece := by
    intro piece hp
    rcases List.mem_map.mp hp with ⟨pr, hpr, hrend⟩
    obtain ⟨hk, hv⟩ := h pr hpr
    rw [← hrend, renderPair]
    refine not_mem_append _ _ _ ?_
      (not_mem_cons _ _ _ (by decide) (clean_not_mem pr.2 hv '&' (by decide)))
    rcases hk with hx | hx | hx | hx <;> rw [hx] <;> decide
  rw [parseDSNParams, splitOn_joinAmp _ (by simp [hne]) hamp]
  exact processParams_session plist st.1 st.2 (fun pr hpr =>
    ⟨(h pr hpr).1, clean_not_mem pr.2 (h pr hpr).2 '%' (by decide),
      clean_not_mem pr.2 (h pr hpr).2 '+' (by decide)⟩)

theorem fill_clean (u p a db sc wh ro proto auth app : Str) (port lt : Int)
    (hu0 : ¬ u = []) (hp0 : ¬ p = []) (ha0 : ¬ a = [])
    (hproto : proto = [] ∨ proto = "https".data)
    (hport : port = 0 ∨ port = 443)
    (hauth : auth = [] ∨ auth = defaultAuthenticator)
    (hlt : lt = 0 ∨ lt = defaultLoginTimeout)
    (happ : app = [] ∨ app = clientType) :
    fillMissingConfigParameters
      { Account := a, User := u, Password := p, Database := db, Schema := sc,
        Warehouse := wh, Role := ro, Region := [], Params := [], Protocol := proto,
        Host := a ++ sfxDot, Port := port, Authenticator := auth, Passcode := [],
        PasscodeInPassword := false, LoginTimeout := lt, RequestTimeout := 0,
        Application := app, InsecureMode := false } =
      .ok (cleanFilled u p a db sc wh ro) := by
  have h1 : (if proto = [] then "https".data else proto) = "https".data := by
    rcases hproto with h | h
    · rw [if_pos h]
    · rw [if_neg (by rw [h]; decide), h]
  have h2 : (if port = 0 then (443 : Int) else port) = 443 := by
    rcases hport with h | h
    · rw [if_pos h]
    · rw [if_neg (by rw [h]; decide), h]
  have h3 : (if auth = [] then defaultAuthenticator else auth) = defaultAuthenticator := by
    rcases hauth with h | h
    · rw [if_pos h]
    · rw [if_neg (by rw [h]; decide), h]
  have h4 : (if lt = 0 then defaultLoginTimeout else lt) = defaultLoginTimeout := by
    rcases hlt with h | h
    · rw [if_pos h]
    · rw [if_neg (by rw [h]; decide), h]
  have h5 : (if app = [] then clientType else app) = clientType := by
    rcases happ with h | h
    · rw [if_pos h]
    · rw [if_neg (by rw [h]; decide), h]
  have h6 : reconcileHost (a ++ sfxDot) [] = a ++ sfxDot := by simp [reconcileHost]
  simp only [fillMissingConfigParameters]
  rw [if_neg ha0, if_neg hu0, if_neg hp0]
  rw [h1, h2, h3, h4, h5, h6, if_pos trivial]
  rfl

theorem dsnHostStep_id (cfg : Config) (h : ¬ cfg.Host = []) : dsnHostStep cfg = cfg := by
  rw [dsnHostStep, if_neg h]

theorem dsnRegionStep_id (cfg : Config) (h : subIndex ['.'] cfg.Account = none) :
    dsnRegionStep cfg = cfg := by
  simp only [dsnRegionStep, h]

theorem DSN_clean (u p a db sc wh ro proto auth app : Str) (port lt : Int)
    (hu0 : ¬ u = []) (hp0 : ¬ p = []) (ha0 : ¬ a = []) (ha : cleanStr a = true)
    (hproto : proto = [] ∨ proto = "https".data)
    (hport : port = 0 ∨ port = 443)
    (hauth : auth = [] ∨ auth = defaultAuthenticator)
    (hlt : lt = 0 ∨ lt = defaultLoginTimeout)
    (happ : app = [] ∨ app = clientType) :
    DSN { Account := a, User := u, Password := p, Database := db, Schema := sc, Warehouse := wh, Role := ro, Region := [], Params := [], Protocol := proto, Host := a ++ sfxDot, Port := port, Authenticator := auth, Passcode := [], PasscodeInPassword := false, LoginTimeout := lt, RequestTimeout := 0, Application := app, InsecureMode := false } =
      (.ok (buildDsnString (cleanFilled u p a db sc wh ro)), cleanFilled u p a db sc wh ro) := by
  have hhost : ¬ (a ++ sfxDot) = ([] : Str) := fun hEq =>
    absurd (List.append_eq_nil.mp hEq).2 (by decide)
  have hdot : subIndex ['.'] a = none :=
    subIndex_singleton_none '.' a (clean_not_mem a ha '.' (by decide))
  simp only [DSN]
  rw [dsnHostStep_id { Account := a, User := u, Password := p, Database := db, Schema := sc, Warehouse := wh, Role := ro, Region := [], Params := [], Protocol := proto, Host := a ++ sfxDot, Port := port, Authenticator := auth, Passcode := [], PasscodeInPassword := false, LoginTimeout := lt, RequestTimeout := 0, Application := app, InsecureMode := false } hhost]
  rw [dsnRegionStep_id { Account := a, User := u, Password := p, Database := db, Schema := sc, Warehouse := wh, Role := ro, Region := [], Params := [], Protocol := proto, Host := a ++ sfxDot, Port := port, Authenticator := auth, Passcode := [], PasscodeInPassword := false, LoginTimeout := lt, RequestTimeout := 0, Application := app, InsecureMode := false } hdot]
  rw [fill_clean u p a db sc wh ro proto auth app port lt hu0 hp0 ha0 hproto hport hauth hlt happ]

theorem buildParams_clean (u p a db sc wh ro : Str) :
    buildParams (cleanFilled u p a db sc wh ro) =
      (if db = [] then [] else [("database".data, db)]) ++
      (if sc = [] then [] else [("schema".data, sc)]) ++
      (if wh = [] then [] else [("warehouse".data, wh)]) ++
      (if ro = [] then [] else [("role".data, ro)]) := by
  simp [buildParams, cleanFilled, defaultRequestTimeout]

theorem sortPairs_session (db sc wh ro : Str) :
    sortPairs ((if db = [] then [] else [("database".data, db)]) ++
      (if sc = [] then [] else [("schema".data, sc)]) ++
      (if wh = [] then [] else [("warehouse".data, wh)]) ++
      (if ro = [] then [] else [("role".data, ro)])) =
    (if db = [] then [] else [("database".data, db)]) ++
      (if ro = [] then [] else [("role".data, ro)]) ++
      (if sc = [] then [] else [("schema".data, sc)]) ++
      (if wh = [] then [] else [("warehouse".data, wh)]) := by
  by_cases h1 : db = [] <;> by_cases h2 : sc = [] <;> by_cases h3 : wh = [] <;>
    by_cases h4 : ro = [] <;>
    simp [h1, h2, h3, h4, sortPairs, insertPair, strLe]

theorem mem_condSingleton {α : Type} (pr x : α) (c : Prop) [Decidable c]
    (h : pr ∈ (if c then ([] : List α) else [x])) : pr = x := by
  split_ifs at h
  · cases h
  · simpa using h

theorem map_esc (plist : List (Str × Str))
    (h : ∀ pr ∈ plist, cleanStr pr.1 = true ∧ cleanStr pr.2 = true) :
    plist.map (fun pr => queryEscape pr.1 ++ '=' :: queryEscape pr.2) =
      plist.map renderPair := by
  induction plist with
  | nil => rfl
  | cons pr rest ih =>
      obtain ⟨h1, h2⟩ := h pr (List.mem_cons_self pr rest)
      simp only [List.map_cons, queryEscape_clean pr.1 h1, queryEscape_clean pr.2 h2, renderPair]
      rw [ih (fun q hq => h q (List.mem_cons_of_mem pr hq))]

theorem session_pairs_clean (db sc wh ro : Str)
    (hdb : cleanStr db = true) (hsc : cleanStr sc = true) (hwh : cleanStr wh = true)
    (hro : cleanStr ro = true) :
    ∀ pr ∈ (if db = [] then [] else [("database".data, db)]) ++
      (if ro = [] then [] else [("role".data, ro)]) ++
      (if sc = [] then [] else [("schema".data, sc)]) ++
      (if wh = [] then [] else [("warehouse".data, wh)]),
      (pr.1 = "database".data ∨ pr.1 = "schema".data ∨ pr.1 = "warehouse".data ∨
        pr.1 = "role".data) ∧ cleanStr pr.1 = true ∧ cleanStr pr.2 = true := by
  intro pr hpr
  rcases List.mem_append.mp hpr with hx | hx
  rotate_left
  · rw [mem_condSingleton pr _ _ hx]
    dsimp only
    exact ⟨Or.inr (Or.inr (Or.inl rfl)), by decide, hwh⟩
  rcases List.mem_append.mp hx with hy | hy
  rotate_left
  · rw [mem_condSingleton pr _ _ hy]
    dsimp only
    exact ⟨Or.inr (Or.inl rfl), by decide, hsc⟩
  rcases List.mem_append.mp hy with hz | hz
  · rw [mem_condSingleton pr _ _ hz]
    dsimp only
    exact ⟨Or.inl rfl, by decide, hdb⟩
  · rw [mem_condSingleton pr _ _ hz]
    dsimp only
    exact ⟨Or.inr (Or.inr (Or.inr rfl)), by decide, hro⟩

theorem encodeValues_session (db sc wh ro : Str)
    (hdb : cleanStr db = true) (hsc : cleanStr sc = true) (hwh : cleanStr wh = true)
    (hro : cleanStr ro = true) :
    encodeValues ((if db = [] then [] else [("database".data, db)]) ++
      (if sc = [] then [] else [("schema".data, sc)]) ++
      (if wh = [] then [] else [("warehouse".data, wh)]) ++
      (if ro = [] then [] else [("role".data, ro)])) =
    joinAmp (((if db = [] then [] else [("database".data, db)]) ++
      (if ro = [] then [] else [("role".data, ro)]) ++
      (if sc = [] then [] else [("schema".data, sc)]) ++
      (if wh = [] then [] else [("warehouse".data, wh)])).map renderPair) := by
  rw [encodeValues, sortPairs_session,
    map_esc _ (fun pr hpr => ((session_pairs_clean db sc wh ro hdb hsc hwh hro) pr hpr).2)]

theorem applyQ_base (u p a db sc wh ro : Str) :
    applyQ (baseCfg u p a) ((if db = [] then [] else [("database".data, db)]) ++
      (if ro = [] then [] else [("role".data, ro)]) ++
      (if sc = [] then [] else [("schema".data, sc)]) ++
      (if wh = [] then [] else [("warehouse".data, wh)])) =
    { baseCfg u p a with Database := db, Schema := sc, Warehouse := wh, Role := ro } := by
  by_cases h1 : db = [] <;> by_cases h2 : sc = [] <;> by_cases h3 : wh = [] <;>
    by_cases h4 : ro = [] <;>
    simp [h1, h2, h3, h4, applyQ, applySession, baseCfg, emptyConfig]

theorem joinAmp_render_ne (pr : Str × Str) (rest : List (Str × Str)) :
    ¬ joinAmp ((pr :: rest).map renderPair) = [] := by
  cases rest with
  | nil => simp [joinAmp, renderPair]
  | cons y t => simp [joinAmp, renderPair]

theorem joinAmp_not_mem (c : Char) (plist : List (Str × Str)) (hc : c.isAlphanum = false)
    (hamp : ¬ c = '&') (heq : ¬ c = '=')
    (hkeys : ∀ pr ∈ plist, cleanStr pr.1 = true ∧ cleanStr pr.2 = true) :
    c ∉ joinAmp (plist.map renderPair) := by
  intro hm
  rcases mem_joinAmp c _ hm with h | ⟨piece, hpc, hcp⟩
  · exact hamp h
  · rcases List.mem_map.mp hpc with ⟨pr, hpr, hrend⟩
    rw [← hrend, renderPair] at hcp
    rcases List.mem_append.mp hcp with h | h
    · exact clean_not_mem pr.1 (hkeys pr hpr).1 c hc h
    · rcases List.mem_cons.mp h with h | h
      · exact heq h
      · exact clean_not_mem pr.2 (hkeys pr hpr).2 c hc h

theorem buildDsnString_clean_nq (u p a : Str) :
    buildDsnString (cleanFilled u p a [] [] [] []) = cleanDsn u p a [] := by
  rw [buildDsnString, buildParams_clean]
  dsimp only [cleanFilled]
  simp [cleanDsn, encodeValues, sortPairs, joinAmp,
    show intToStr 443 = ('4' :: '4' :: '3' :: [] : Str) from by decide]

theorem buildDsnString_clean_q (u p a db sc wh ro : Str)
    (hdb : cleanStr db = true) (hsc : cleanStr sc = true) (hwh : cleanStr wh = true)
    (hro : cleanStr ro = true)
    (hne : ¬ ((if db = [] then [] else [("database".data, db)]) ++
      (if ro = [] then [] else [("role".data, ro)]) ++
      (if sc = [] then [] else [("schema".data, sc)]) ++
      (if wh = [] then [] else [("warehouse".data, wh)])) = []) :
    buildDsnString (cleanFilled u p a db sc wh ro) =
      cleanDsn u p a ('?' :: joinAmp (((if db = [] then [] else [("database".data, db)]) ++
        (if ro = [] then [] else [("role".data, ro)]) ++
        (if sc = [] then [] else [("schema".data, sc)]) ++
        (if wh = [] then [] else [("warehouse".data, wh)])).map renderPair)) := by
  rw [buildDsnString, buildParams_clean, encodeValues_session db sc wh ro hdb hsc hwh hro]
  have hq : ¬ joinAmp (((if db = [] then [] else [("database".data, db)]) ++
      (if ro = [] then [] else [("role".data, ro)]) ++
      (if sc = [] then [] else [("schema".data, sc)]) ++
      (if wh = [] then [] else [("warehouse".data, wh)])).map renderPair) = [] := by
    cases hL : ((if db = [] then [] else [("database".data, db)]) ++
        (if ro = [] then [] else [("role".data, ro)]) ++
        (if sc = [] then [] else [("schema".data, sc)]) ++
        (if wh = [] then [] else [("warehouse".data, wh)])) with
    | nil => exact absurd hL hne
    | cons pr rest => exact joinAmp_render_ne pr rest
  dsimp only [cleanFilled]
  rw [if_neg hq, show intToStr 443 = ('4' :: '4' :: '3' :: [] : Str) from by decide]
  simp [cleanDsn]

theorem postPhase_clean (px : Proxy) (u p a db sc wh ro : Str)
    (hu0 : ¬ u = []) (hp0 : ¬ p = []) (ha0 : ¬ a = []) (ha : cleanStr a = true)
    (hdb : cleanStr db = true) (hsc : cleanStr sc = true) (hwh : cleanStr wh = true)
    (hro : cleanStr ro = true) :
    postPhase ({ baseCfg u p a with Database := db, Schema := sc, Warehouse := wh, Role := ro }, px) =
      .ok (cleanFilled u p a db sc wh ro, px) := by
  have hsuf : hasSuffix (a ++ sfxDot) sfxDot = true := hasSuffix_append a sfxDot
  have hsfx : sfxDot = '.' :: sfxBare := by decide
  have hdotidx : subIndex ['.'] (a ++ sfxDot) = some a.length := by
    rw [hsfx]
    exact subIndex_singleton_at '.' a sfxBare (clean_not_mem a ha '.' (by decide))
  have hder : deriveAccount { baseCfg u p a with Database := db, Schema := sc, Warehouse := wh, Role := ro } =
      { baseCfg u p a with Account := a, Database := db, Schema := sc, Warehouse := wh, Role := ro } := by
    simp only [deriveAccount, baseCfg, emptyConfig]
    rw [if_pos (And.intro trivial hsuf), hdotidx]
    dsimp only
    rw [if_pos (List.length_pos.mpr ha0), take_pre a sfxDot]
  have hfill2 : fillMissingConfigParameters
      { baseCfg u p a with Account := a, Database := db, Schema := sc, Warehouse := wh, Role := ro } =
      .ok (cleanFilled u p a db sc wh ro) :=
    fill_clean u p a db sc wh ro [] [] [] 443 0 hu0 hp0 ha0 (Or.inl rfl) (Or.inr rfl)
      (Or.inl rfl) (Or.inl rfl) (Or.inl rfl)
  simp only [postPhase, hder, hfill2]
  dsimp only [cleanFilled]
  rw [queryUnescape_plain db (clean_not_mem db hdb '%' (by decide)) (clean_not_mem db hdb '+' (by decide))]
  dsimp only
  rw [queryUnescape_plain sc (clean_not_mem sc hsc '%' (by decide)) (clean_not_mem sc hsc '+' (by decide))]
  dsimp only
  rw [queryUnescape_plain ro (clean_not_mem ro hro '%' (by decide)) (clean_not_mem ro hro '+' (by decide))]
  dsimp only
  rw [queryUnescape_plain wh (clean_not_mem wh hwh '%' (by decide)) (clean_not_mem wh hwh '+' (by decide))]

theorem condSingleton_eq_nil {α : Type} (x : α) (c : Prop) [Decidable c]
    (h : (if c then ([] : List α) else [x]) = []) : c := by
  split_ifs at h with hc
  exact hc

/-- C1 (amended): on the clean fragment of Configs -- alphanumeric non-empty User,
Password and Account, alphanumeric Database, Schema, Warehouse and Role, Host already
equal to the derived account host, empty Region, Params and Passcode, Protocol, Port,
Authenticator, LoginTimeout and Application either empty/zero or already at their
default, RequestTimeout zero and InsecureMode false -- serialization succeeds, the
serializer leaves its input at the defaulted Config c, and parsing the produced string
returns exactly (c, px): the round trip is the identity after defaulting. -/
theorem C1_amended : ∀ (cfg : Config) (px : Proxy),
    cleanStr cfg.User = true → ¬ cfg.User = [] →
    cleanStr cfg.Password = true → ¬ cfg.Password = [] →
    cleanStr cfg.Account = true → ¬ cfg.Account = [] →
    cleanStr cfg.Database = true → cleanStr cfg.Schema = true →
    cleanStr cfg.Warehouse = true → cleanStr cfg.Role = true →
    cfg.Host = cfg.Account ++ sfxDot → cfg.Region = [] → cfg.Params = [] →
    (cfg.Protocol = [] ∨ cfg.Protocol = "https".data) →
    (cfg.Port = 0 ∨ cfg.Port = 443) →
    (cfg.Authenticator = [] ∨ cfg.Authenticator = defaultAuthenticator) →
    cfg.Passcode = [] → cfg.PasscodeInPassword = false →
    (cfg.LoginTimeout = 0 ∨ cfg.LoginTimeout = defaultLoginTimeout) →
    cfg.RequestTimeout = 0 →
    (cfg.Application = [] ∨ cfg.Application = clientType) →
    cfg.InsecureMode = false →
    ∃ (d : Str) (c : Config),
      DSN cfg = (.ok d, c) ∧ fillMissingConfigParameters cfg = .ok c ∧
      ParseDSN d px = .ok (c, px) := by
  intro cfg px hU hu0 hP hp0 hA ha0 hDB hSC hWH hRO hHost hRegion hParams hProto hPort
    hAuth hPc hPip hLt hRt hApp hIm
  obtain ⟨acc, usr, pwd, db, sc, wh, ro, rg, ps, proto, host, port, auth, pc, pip, lt, rt, app, im⟩ := cfg
  dsimp only at *
  subst hHost hRegion hParams hPc hPip hRt hIm
  refine ⟨buildDsnString (cleanFilled usr pwd acc db sc wh ro),
    cleanFilled usr pwd acc db sc wh ro, ?_, ?_, ?_⟩
  · exact DSN_clean usr pwd acc db sc wh ro proto auth app port lt hu0 hp0 ha0 hA hProto
      hPort hAuth hLt hApp
  · exact fill_clean usr pwd acc db sc wh ro proto auth app port lt hu0 hp0 ha0 hProto
      hPort hAuth hLt hApp
  · by_cases hq4 : db = [] ∧ sc = [] ∧ wh = [] ∧ ro = []
    · obtain ⟨e1, e2, e3, e4⟩ := hq4
      subst e1
      subst e2
      subst e3
      subst e4
      rw [buildDsnString_clean_nq usr pwd acc, parse_clean_nq px usr pwd acc hU hP hA]
      exact postPhase_clean px usr pwd acc [] [] [] [] hu0 hp0 ha0 hA (by decide) (by decide)
        (by decide) (by decide)
    · have hne : ¬ ((if db = [] then [] else [("database".data, db)]) ++
          (if ro = [] then [] else [("role".data, ro)]) ++
          (if sc = [] then [] else [("schema".data, sc)]) ++
          (if wh = [] then [] else [("warehouse".data, wh)])) = [] := by
        intro hEq
        rcases List.append_eq_nil.mp hEq with ⟨hEq2, hw⟩
        rcases List.append_eq_nil.mp hEq2 with ⟨hEq3, hs⟩
        rcases List.append_eq_nil.mp hEq3 with ⟨hd, hr⟩
        exact hq4 ⟨condSingleton_eq_nil _ _ hd, condSingleton_eq_nil _ _ hs,
          condSingleton_eq_nil _ _ hw, condSingleton_eq_nil _ _ hr⟩
      have hkeys : ∀ pr ∈ ((if db = [] then [] else [("database".data, db)]) ++
          (if ro = [] then [] else [("role".data, ro)]) ++
          (if sc = [] then [] else [("schema".data, sc)]) ++
          (if wh = [] then [] else [("warehouse".data, wh)])),
          cleanStr pr.1 = true ∧ cleanStr pr.2 = true :=
        fun pr hpr => ((session_pairs_clean db sc wh ro hDB hSC hWH hRO) pr hpr).2
      rw [buildDsnString_clean_q usr pwd acc db sc wh ro hDB hSC hWH hRO hne,
        parse_clean_q px usr pwd acc _ hU hP hA
          (joinAmp_not_mem '/' _ (by decide) (by decide) (by decide) hkeys)
          (joinAmp_not_mem '@' _ (by decide) (by decide) (by decide) hkeys)
          (joinAmp_not_mem '?' _ (by decide) (by decide) (by decide) hkeys),
        parseDSNParams_session (baseCfg usr pwd acc, px) _ hne
          (fun pr hpr => ⟨((session_pairs_clean db sc wh ro hDB hSC hWH hRO) pr hpr).1,
            ((session_pairs_clean db sc wh ro hDB hSC hWH hRO) pr hpr).2.2⟩)]
      dsimp only
      rw [applyQ_base usr pwd acc db sc wh ro]
      exact postPhase_clean px usr pwd acc db sc wh ro hu0 hp0 ha0 hA hDB hSC hWH hRO

/-- C1 counterexample: the Config with Account "ac", User "u", Password "p" and
InsecureMode true satisfies the mandatory-field invariant and serializes successfully,
but DSN never writes InsecureMode into the query string, so parsing the produced DSN
yields InsecureMode = false while the defaulted input has InsecureMode = true: the
round trip does not preserve every non-proxy field. -/
theorem C1_counterexample :
    (DSN { emptyConfig with Account := ("ac".data), User := ("u".data), Password := ("p".data), InsecureMode := true }).1
      = Except.ok ("u:p@ac.snowflakecomputing.com:443".data)
    ∧ (fillMissingConfigParameters { emptyConfig with Account := ("ac".data), User := ("u".data), Password := ("p".data), InsecureMode := true }).map Config.InsecureMode = Except.ok true
    ∧ (ParseDSN ("u:p@ac.snowflakecomputing.com:443".data) emptyProxy).map (fun r => r.1.InsecureMode) = Except.ok false := by
  refine ⟨?_, ?_, ?_⟩ <;> decide

theorem C1_amended_witness :
    ∃ (d : Str) (c : Config),
      DSN { emptyConfig with User := ("u".data), Password := ("p".data), Account := ("ac".data), Host := ("ac".data) ++ sfxDot, Database := ("db".data) } = (.ok d, c) ∧
      fillMissingConfigParameters { emptyConfig with User := ("u".data), Password := ("p".data), Account := ("ac".data), Host := ("ac".data) ++ sfxDot, Database := ("db".data) } = .ok c ∧
      ParseDSN d emptyProxy = .ok (c, emptyProxy) :=
  C1_amended { emptyConfig with User := ("u".data), Password := ("p".data), Account := ("ac".data), Host := ("ac".data) ++ sfxDot, Database := ("db".data) } emptyProxy
    (by decide) (by decide) (by decide) (by decide) (by decide) (by decide)
    (by decide) (by decide) (by decide) (by decide)
    rfl rfl rfl (Or.inl rfl) (Or.inl rfl) (Or.inl rfl) rfl rfl (Or.inl rfl) rfl (Or.inl rfl) rfl

end Gosnowflake
